import Mathlib

/-!
Verification of the backup/restore engine of the budget-tracker repository.

The definitions below are a shallow embedding of `src/server/services/backupService.ts`
(and the route-level heuristic in `src/server/routes/backup.ts`) over an explicit
database state.  The SQLite store (`better-sqlite3`, with `foreign_keys = ON`, see
`src/server/db/database.ts` and `src/server/db/schema.sql`) is modelled as eight
insertion-ordered lists; `INSERT` statements are modelled by a constraint check
(primary-key uniqueness, foreign keys, numeric CHECK constraints from `schema.sql`)
followed by an append, and `db.transaction` is modelled by its documented
rollback-on-throw semantics: the state is unchanged when the wrapped body fails.
TypeScript `null`-able fields are `Option`; string-literal union types are inductives
(they are also CHECK-constrained in the schema); `number` amounts are modelled as `ℚ`
and integer timestamps as `ℤ`.
-/

namespace BudgetTracker

/-! ### Entity records (src/server/types/index.ts) -/

inductive AccountType where
  | checking | savings | credit | cash | investment
deriving DecidableEq, Repr

inductive CategoryType where
  | income | expense
deriving DecidableEq, Repr

inductive TxType where
  | income | expense | transfer
deriving DecidableEq, Repr

/-- TS type of `Bill.frequency`: `'weekly' | 'bi-weekly' | 'monthly' | 'quarterly' | 'yearly'`.
Note the schema CHECK constraint only admits `monthly`, `quarterly`, `yearly`. -/
inductive BillFrequency where
  | weekly | biWeekly | monthly | quarterly | yearly
deriving DecidableEq, Repr

inductive BillType where
  | income | expense
deriving DecidableEq, Repr

inductive BudgetPeriod where
  | weekly | monthly | yearly
deriving DecidableEq, Repr

inductive GoalStatus where
  | active | paused | completed | abandoned
deriving DecidableEq, Repr

inductive ContributionSource where
  | manual | automatic | adjustment
deriving DecidableEq, Repr

inductive PatternFrequency where
  | daily | weekly | monthly | yearly
deriving DecidableEq, Repr

structure Account where
  id : String
  name : String
  type : AccountType
  balance : ℚ
  currency : String
  is_active : Int
  created_at : Int
  updated_at : Int
deriving DecidableEq, Repr

structure Category where
  id : String
  name : String
  type : CategoryType
  icon : Option String
  color : Option String
  parent_id : Option String
  created_at : Int
deriving DecidableEq, Repr

structure Transaction where
  id : String
  account_id : String
  category_id : Option String
  amount : ℚ
  type : TxType
  date : Int
  description : Option String
  notes : Option String
  is_recurring : Int
  recurring_pattern_id : Option String
  created_at : Int
  updated_at : Int
deriving DecidableEq, Repr

structure Bill where
  id : String
  name : String
  category_id : Option String
  account_id : Option String
  amount : ℚ
  due_day : Int
  frequency : BillFrequency
  type : BillType
  next_due_date : Int
  reminder_days : Int
  is_active : Int
  is_paid : Int
  created_at : Int
  updated_at : Int
deriving DecidableEq, Repr

structure Budget where
  id : String
  category_id : String
  amount : ℚ
  period : BudgetPeriod
  start_date : Int
  end_date : Option Int
  created_at : Int
  updated_at : Int
deriving DecidableEq, Repr

structure Goal where
  id : String
  name : String
  description : Option String
  target_amount : ℚ
  current_amount : ℚ
  deadline : Option Int
  priority : Int
  icon : String
  color : String
  status : GoalStatus
  created_at : Int
  updated_at : Int
deriving DecidableEq, Repr

structure GoalContribution where
  id : String
  goal_id : String
  amount : ℚ
  source : ContributionSource
  notes : Option String
  date : Int
  created_at : Int
deriving DecidableEq, Repr

structure RecurringPattern where
  id : String
  frequency : PatternFrequency
  interval : Int
  day_of_week : Option Int
  day_of_month : Option Int
  month_of_year : Option Int
  start_date : Int
  end_date : Option Int
  last_processed : Option Int
  created_at : Int
deriving DecidableEq, Repr

/-! ### The store: eight insertion-ordered tables -/

structure DB where
  accounts : List Account
  categories : List Category
  transactions : List Transaction
  bills : List Bill
  goals : List Goal
  goalContributions : List GoalContribution
  budgets : List Budget
  recurringPatterns : List RecurringPattern
deriving DecidableEq, Repr

def emptyDB : DB := ⟨[], [], [], [], [], [], [], []⟩

def accountIds (l : List Account) : List String := l.map (·.id)
def categoryIds (l : List Category) : List String := l.map (·.id)
def transactionIds (l : List Transaction) : List String := l.map (·.id)
def billIds (l : List Bill) : List String := l.map (·.id)
def budgetIds (l : List Budget) : List String := l.map (·.id)
def goalIds (l : List Goal) : List String := l.map (·.id)
def contributionIds (l : List GoalContribution) : List String := l.map (·.id)
def patternIds (l : List RecurringPattern) : List String := l.map (·.id)

/-! ### SQLite INSERT semantics

Each `checkInsert*` models the constraints `schema.sql` imposes on an `INSERT`
into that table (with `PRAGMA foreign_keys = ON`): `some msg` is the thrown
`SqliteError` message, `none` means the insert succeeds; `add*` appends the row.
With several simultaneous violations only one message is thrown; no claim
depends on multi-violation message choice. -/

def checkInsertAccount (db : DB) (a : Account) : Option String :=
  if (accountIds db.accounts).contains a.id then
    some "UNIQUE constraint failed: accounts.id"
  else none

def addAccount (db : DB) (a : Account) : DB :=
  { db with accounts := db.accounts ++ [a] }

def checkInsertCategory (db : DB) (c : Category) : Option String :=
  if (categoryIds db.categories).contains c.id then
    some "UNIQUE constraint failed: categories.id"
  else
    match c.parent_id with
    | none => none
    | some p =>
      if (categoryIds db.categories).contains p then none
      else some "FOREIGN KEY constraint failed"

def addCategory (db : DB) (c : Category) : DB :=
  { db with categories := db.categories ++ [c] }

def checkInsertPattern (db : DB) (p : RecurringPattern) : Option String :=
  if !(p.day_of_week.all fun d => 0 ≤ d && d ≤ 6) then
    some "CHECK constraint failed: day_of_week"
  else if !(p.day_of_month.all fun d => 1 ≤ d && d ≤ 31) then
    some "CHECK constraint failed: day_of_month"
  else if !(p.month_of_year.all fun m => 1 ≤ m && m ≤ 12) then
    some "CHECK constraint failed: month_of_year"
  else if (patternIds db.recurringPatterns).contains p.id then
    some "UNIQUE constraint failed: recurring_patterns.id"
  else none

def addPattern (db : DB) (p : RecurringPattern) : DB :=
  { db with recurringPatterns := db.recurringPatterns ++ [p] }

def checkInsertTransaction (db : DB) (t : Transaction) : Option String :=
  if (transactionIds db.transactions).contains t.id then
    some "UNIQUE constraint failed: transactions.id"
  else if !(accountIds db.accounts).contains t.account_id then
    some "FOREIGN KEY constraint failed"
  else if !(t.category_id.all fun c => (categoryIds db.categories).contains c) then
    some "FOREIGN KEY constraint failed"
  else if !(t.recurring_pattern_id.all fun r => (patternIds db.recurringPatterns).contains r) then
    some "FOREIGN KEY constraint failed"
  else none

def addTransaction (db : DB) (t : Transaction) : DB :=
  { db with transactions := db.transactions ++ [t] }

def checkInsertBill (db : DB) (b : Bill) : Option String :=
  if !(1 ≤ b.due_day && b.due_day ≤ 31) then
    some "CHECK constraint failed: due_day"
  else if !(b.frequency == .monthly || b.frequency == .quarterly || b.frequency == .yearly) then
    some "CHECK constraint failed: frequency"
  else if (billIds db.bills).contains b.id then
    some "UNIQUE constraint failed: bills.id"
  else if !(b.category_id.all fun c => (categoryIds db.categories).contains c) then
    some "FOREIGN KEY constraint failed"
  else if !(b.account_id.all fun a => (accountIds db.accounts).contains a) then
    some "FOREIGN KEY constraint failed"
  else none

def addBill (db : DB) (b : Bill) : DB :=
  { db with bills := db.bills ++ [b] }

def checkInsertBudget (db : DB) (b : Budget) : Option String :=
  if (budgetIds db.budgets).contains b.id then
    some "UNIQUE constraint failed: budgets.id"
  else if !(categoryIds db.categories).contains b.category_id then
    some "FOREIGN KEY constraint failed"
  else none

def addBudget (db : DB) (b : Budget) : DB :=
  { db with budgets := db.budgets ++ [b] }

def checkInsertGoal (db : DB) (g : Goal) : Option String :=
  if !(1 ≤ g.priority && g.priority ≤ 10) then
    some "CHECK constraint failed: priority"
  else if (goalIds db.goals).contains g.id then
    some "UNIQUE constraint failed: goals.id"
  else none

def addGoal (db : DB) (g : Goal) : DB :=
  { db with goals := db.goals ++ [g] }

def checkInsertContribution (db : DB) (c : GoalContribution) : Option String :=
  if (contributionIds db.goalContributions).contains c.id then
    some "UNIQUE constraint failed: goal_contributions.id"
  else if !(goalIds db.goals).contains c.goal_id then
    some "FOREIGN KEY constraint failed"
  else none

def addContribution (db : DB) (c : GoalContribution) : DB :=
  { db with goalContributions := db.goalContributions ++ [c] }

/-! ### Result model (src/server/types/index.ts) -/

inductive ImportMode where
  | replace | merge
deriving DecidableEq, Repr

structure ImportOptions where
  mode : ImportMode
  password : Option String
deriving DecidableEq, Repr

structure ImportError where
  entity : String
  id : String
  field : Option String
  message : String
deriving DecidableEq, Repr

/-- Source `ImportResult['summary']`: an added/skipped pair per entity kind. -/
structure Summary where
  accountsAdded : Nat
  accountsSkipped : Nat
  categoriesAdded : Nat
  categoriesSkipped : Nat
  transactionsAdded : Nat
  transactionsSkipped : Nat
  billsAdded : Nat
  billsSkipped : Nat
  goalsAdded : Nat
  goalsSkipped : Nat
  budgetsAdded : Nat
  budgetsSkipped : Nat
  patternsAdded : Nat
  patternsSkipped : Nat
  contributionsAdded : Nat
  contributionsSkipped : Nat
deriving DecidableEq, Repr

/-- Source `createEmptySummary` (backupService.ts:44). -/
def createEmptySummary : Summary :=
  ⟨0, 0, 0, 0, 0, 0, 0, 0, 0, 0, 0, 0, 0, 0, 0, 0⟩

structure ImportResult where
  success : Bool
  mode : ImportMode
  summary : Summary
  errors : List ImportError
deriving DecidableEq, Repr

/-! ### Backup payload (Snapshot)

An import payload is untrusted JSON, so each of the eight collections of the
`data` object is `Option`al: `none` models a key that is missing or bound to a
non-array value (the two cases `Array.isArray` rejects), and `data`/`metadata`
themselves may be absent.  Record-level dynamic typing beyond this (e.g. a
non-numeric `amount`) is not representable in the typed embedding; the
corresponding `typeof` guard of the source is then vacuous here. -/

structure BackupCollections where
  accounts : Option (List Account)
  categories : Option (List Category)
  transactions : Option (List Transaction)
  bills : Option (List Bill)
  goals : Option (List Goal)
  goalContributions : Option (List GoalContribution)
  budgets : Option (List Budget)
  recurringPatterns : Option (List RecurringPattern)
deriving DecidableEq, Repr

structure BackupMetadata where
  totalAccounts : Int
  totalTransactions : Int
  totalGoals : Int
  totalBills : Int
deriving DecidableEq, Repr

structure BackupData where
  version : Int
  exportedAt : String
  data : Option BackupCollections
  metadata : Option BackupMetadata
deriving DecidableEq, Repr

/-- The eight collections as plain lists, as the strategies access them once
validation has established that every collection is present (`getD []` is exact
on every payload that reaches a strategy). -/
structure Collections where
  accounts : List Account
  categories : List Category
  transactions : List Transaction
  bills : List Bill
  goals : List Goal
  goalContributions : List GoalContribution
  budgets : List Budget
  recurringPatterns : List RecurringPattern
deriving DecidableEq, Repr

def getCollections (b : BackupData) : Collections :=
  match b.data with
  | none => ⟨[], [], [], [], [], [], [], []⟩
  | some d =>
    ⟨d.accounts.getD [], d.categories.getD [], d.transactions.getD [],
     d.bills.getD [], d.goals.getD [], d.goalContributions.getD [],
     d.budgets.getD [], d.recurringPatterns.getD []⟩

/-! ### Structural validation (backupService.ts:243 `validateBackupStructure`) -/

def requiredKeys : List String :=
  ["accounts", "categories", "transactions", "bills", "goals",
   "goalContributions", "budgets", "recurringPatterns"]

/-- Check `Array.isArray(backup.data?.[key])` for one of the eight keys. -/
def collPresent (d : Option BackupCollections) (key : String) : Bool :=
  match d with
  | none => false
  | some d =>
    if key == "accounts" then d.accounts.isSome
    else if key == "categories" then d.categories.isSome
    else if key == "transactions" then d.transactions.isSome
    else if key == "bills" then d.bills.isSome
    else if key == "goals" then d.goals.isSome
    else if key == "goalContributions" then d.goalContributions.isSome
    else if key == "budgets" then d.budgets.isSome
    else if key == "recurringPatterns" then d.recurringPatterns.isSome
    else false

def versionErrors (b : BackupData) : List ImportError :=
  if b.version ≠ 1 then
    [⟨"backup", "version", none, "Unsupported backup version: " ++ toString b.version⟩]
  else []

/-- The loop over `requiredKeys` pushing one error per missing/non-array
collection; it never stops early. -/
def structureErrors (b : BackupData) : List ImportError :=
  (requiredKeys.filter fun k => !collPresent b.data k).map
    fun k => ⟨"backup", k, none, "Missing or invalid array: " ++ k⟩

def txRecordErrors (tx : Transaction) : List ImportError :=
  (if tx.id = "" then [⟨"transaction", "unknown", some "id", "Transaction missing ID"⟩] else [])
    ++ (if tx.account_id = "" then
          [⟨"transaction", if tx.id = "" then "unknown" else tx.id, some "account_id",
            "Transaction missing account_id"⟩]
        else [])

def accountRecordErrors (acc : Account) : List ImportError :=
  (if acc.id = "" then [⟨"account", "unknown", some "id", "Account missing ID"⟩] else [])
    ++ (if acc.name = "" then
          [⟨"account", if acc.id = "" then "unknown" else acc.id, some "name",
            "Account missing name"⟩]
        else [])

def categoryRecordErrors (cat : Category) : List ImportError :=
  (if cat.id = "" then [⟨"category", "unknown", some "id", "Category missing ID"⟩] else [])
    ++ (if cat.name = "" then
          [⟨"category", if cat.id = "" then "unknown" else cat.id, some "name",
            "Category missing name"⟩]
        else [])

def validateBackupStructure (b : BackupData) : List ImportError :=
  let structural := versionErrors b ++ structureErrors b
  if structural.isEmpty then
    let c := getCollections b
    (c.transactions.map txRecordErrors).flatten
      ++ (c.accounts.map accountRecordErrors).flatten
      ++ (c.categories.map categoryRecordErrors).flatten
  else structural

/-! ### Replace strategy (backupService.ts:314 `import`)

`db.transaction(restore)` rolls the store back to its pre-call state whenever
the wrapped body throws; the body deletes all eight tables (children first)
and re-inserts every incoming record, parents first, aborting on the first
failing insert. -/

structure ReplaceResult where
  success : Bool
  error : Option String
deriving DecidableEq, Repr

/-- The structure check of `import` (backupService.ts:321): an early-returning
loop, so only the first offending key is reported. -/
def checkArraysReplace (b : BackupData) : Option String :=
  requiredKeys.findSome? fun k => if collPresent b.data k then none else some k

def restoreCategories (db : DB) : List Category → Except String DB
  | [] => .ok db
  | c :: rest =>
    match checkInsertCategory db c with
    | some msg => .error msg
    | none => restoreCategories (addCategory db c) rest

def restoreAccounts (db : DB) : List Account → Except String DB
  | [] => .ok db
  | a :: rest =>
    match checkInsertAccount db a with
    | some msg => .error msg
    | none => restoreAccounts (addAccount db a) rest

def restorePatterns (db : DB) : List RecurringPattern → Except String DB
  | [] => .ok db
  | p :: rest =>
    match checkInsertPattern db p with
    | some msg => .error msg
    | none => restorePatterns (addPattern db p) rest

def restoreTransactions (db : DB) : List Transaction → Except String DB
  | [] => .ok db
  | t :: rest =>
    match checkInsertTransaction db t with
    | some msg => .error msg
    | none => restoreTransactions (addTransaction db t) rest

def restoreBills (db : DB) : List Bill → Except String DB
  | [] => .ok db
  | b :: rest =>
    match checkInsertBill db b with
    | some msg => .error msg
    | none => restoreBills (addBill db b) rest

def restoreBudgets (db : DB) : List Budget → Except String DB
  | [] => .ok db
  | b :: rest =>
    match checkInsertBudget db b with
    | some msg => .error msg
    | none => restoreBudgets (addBudget db b) rest

def restoreGoals (db : DB) : List Goal → Except String DB
  | [] => .ok db
  | g :: rest =>
    match checkInsertGoal db g with
    | some msg => .error msg
    | none => restoreGoals (addGoal db g) rest

def restoreContributions (db : DB) : List GoalContribution → Except String DB
  | [] => .ok db
  | c :: rest =>
    match checkInsertContribution db c with
    | some msg => .error msg
    | none => restoreContributions (addContribution db c) rest

/-- The body of `db.transaction(() => ...)` in `import`: clear all eight tables
(the eight `DELETE FROM`s; ordered children-first in the source, which never
fails under `foreign_keys = ON`), then insert parents before children. -/
def restoreAll (c : Collections) : Except String DB := do
  let db ← restoreCategories emptyDB c.categories
  let db ← restoreAccounts db c.accounts
  let db ← restorePatterns db c.recurringPatterns
  let db ← restoreTransactions db c.transactions
  let db ← restoreBills db c.bills
  let db ← restoreBudgets db c.budgets
  let db ← restoreGoals db c.goals
  let db ← restoreContributions db c.goalContributions
  return db

/-- Source `backupService.import` (a Lean keyword, hence the name `importReplace`):
validates version and structure, then runs the atomic restore; on a thrown
error the transaction rolls back and the pre-import state is returned. -/
def importReplace (db : DB) (b : BackupData) : DB × ReplaceResult :=
  if b.version ≠ 1 then (db, ⟨false, some "Unsupported backup version"⟩)
  else
    match checkArraysReplace b with
    | some k => (db, ⟨false, some ("Missing or invalid: " ++ k)⟩)
    | none =>
      match restoreAll (getCollections b) with
      | .ok db' => (db', ⟨true, none⟩)
      | .error e => (db, ⟨false, some e⟩)

/-! ### Merge strategy (backupService.ts:421 `importMerge`) -/

structure MergeSt where
  db : DB
  summary : Summary
  errors : List ImportError
deriving DecidableEq, Repr

def mergeCategoryStep (st : MergeSt) (cat : Category) : MergeSt :=
  if (categoryIds st.db.categories).contains cat.id then
    { st with summary := { st.summary with categoriesSkipped := st.summary.categoriesSkipped + 1 } }
  else
    match checkInsertCategory st.db cat with
    | none =>
      { st with db := addCategory st.db cat,
                summary := { st.summary with categoriesAdded := st.summary.categoriesAdded + 1 } }
    | some msg =>
      { st with errors := st.errors ++ [⟨"category", cat.id, none, msg⟩] }

def mergeAccountStep (st : MergeSt) (acc : Account) : MergeSt :=
  if (accountIds st.db.accounts).contains acc.id then
    { st with summary := { st.summary with accountsSkipped := st.summary.accountsSkipped + 1 } }
  else
    match checkInsertAccount st.db acc with
    | none =>
      { st with db := addAccount st.db acc,
                summary := { st.summary with accountsAdded := st.summary.accountsAdded + 1 } }
    | some msg =>
      { st with errors := st.errors ++ [⟨"account", acc.id, none, msg⟩] }

def mergePatternStep (st : MergeSt) (pat : RecurringPattern) : MergeSt :=
  if (patternIds st.db.recurringPatterns).contains pat.id then
    { st with summary := { st.summary with patternsSkipped := st.summary.patternsSkipped + 1 } }
  else
    match checkInsertPattern st.db pat with
    | none =>
      { st with db := addPattern st.db pat,
                summary := { st.summary with patternsAdded := st.summary.patternsAdded + 1 } }
    | some msg =>
      { st with errors := st.errors ++ [⟨"pattern", pat.id, none, msg⟩] }

/-- Transactions: an explicit referential pre-check on `account_id` precedes
the insert (backupService.ts:505); a failure inside the insert itself (e.g. a
dangling optional `category_id`) is caught without a `field`. -/
def mergeTransactionStep (st : MergeSt) (tx : Transaction) : MergeSt :=
  if (transactionIds st.db.transactions).contains tx.id then
    { st with summary := { st.summary with transactionsSkipped := st.summary.transactionsSkipped + 1 } }
  else if !(accountIds st.db.accounts).contains tx.account_id then
    { st with errors := st.errors ++
        [⟨"transaction", tx.id, some "account_id",
          "Referenced account " ++ tx.account_id ++ " does not exist"⟩] }
  else
    match checkInsertTransaction st.db tx with
    | none =>
      { st with db := addTransaction st.db tx,
                summary := { st.summary with transactionsAdded := st.summary.transactionsAdded + 1 } }
    | some msg =>
      { st with errors := st.errors ++ [⟨"transaction", tx.id, none, msg⟩] }

def mergeBillStep (st : MergeSt) (bill : Bill) : MergeSt :=
  if (billIds st.db.bills).contains bill.id then
    { st with summary := { st.summary with billsSkipped := st.summary.billsSkipped + 1 } }
  else
    match checkInsertBill st.db bill with
    | none =>
      { st with db := addBill st.db bill,
                summary := { st.summary with billsAdded := st.summary.billsAdded + 1 } }
    | some msg =>
      { st with errors := st.errors ++ [⟨"bill", bill.id, none, msg⟩] }

/-- Budgets: note there is no referential pre-check on `category_id`; a
dangling category fails inside the insert (SQLite FK) and is recorded without
a `field`. -/
def mergeBudgetStep (st : MergeSt) (budget : Budget) : MergeSt :=
  if (budgetIds st.db.budgets).contains budget.id then
    { st with summary := { st.summary with budgetsSkipped := st.summary.budgetsSkipped + 1 } }
  else
    match checkInsertBudget st.db budget with
    | none =>
      { st with db := addBudget st.db budget,
                summary := { st.summary with budgetsAdded := st.summary.budgetsAdded + 1 } }
    | some msg =>
      { st with errors := st.errors ++ [⟨"budget", budget.id, none, msg⟩] }

def mergeGoalStep (st : MergeSt) (goal : Goal) : MergeSt :=
  if (goalIds st.db.goals).contains goal.id then
    { st with summary := { st.summary with goalsSkipped := st.summary.goalsSkipped + 1 } }
  else
    match checkInsertGoal st.db goal with
    | none =>
      { st with db := addGoal st.db goal,
                summary := { st.summary with goalsAdded := st.summary.goalsAdded + 1 } }
    | some msg =>
      { st with errors := st.errors ++ [⟨"goal", goal.id, none, msg⟩] }

/-- Contributions: explicit referential pre-check on `goal_id` (backupService.ts:599). -/
def mergeContributionStep (st : MergeSt) (contrib : GoalContribution) : MergeSt :=
  if (contributionIds st.db.goalContributions).contains contrib.id then
    { st with summary := { st.summary with contributionsSkipped := st.summary.contributionsSkipped + 1 } }
  else if !(goalIds st.db.goals).contains contrib.goal_id then
    { st with errors := st.errors ++
        [⟨"contribution", contrib.id, some "goal_id",
          "Referenced goal " ++ contrib.goal_id ++ " does not exist"⟩] }
  else
    match checkInsertContribution st.db contrib with
    | none =>
      { st with db := addContribution st.db contrib,
                summary := { st.summary with contributionsAdded := st.summary.contributionsAdded + 1 } }
    | some msg =>
      { st with errors := st.errors ++ [⟨"contribution", contrib.id, none, msg⟩] }

/-- Source `backupService.importMerge`: collection-by-collection, parents first, each
record skipped when its id exists, otherwise inserted with per-record error
capture.  The outer `db.transaction` only rolls back on an *uncaught*
exception; every record-level failure is caught inside the body, so under a
fault-free store the catch branch (which would set `success := false`) is
unreachable and the result always carries `success := true`. -/
def importMerge (db : DB) (b : BackupData) : DB × ImportResult :=
  let c := getCollections b
  let st : MergeSt := ⟨db, createEmptySummary, []⟩
  let st := c.categories.foldl mergeCategoryStep st
  let st := c.accounts.foldl mergeAccountStep st
  let st := c.recurringPatterns.foldl mergePatternStep st
  let st := c.transactions.foldl mergeTransactionStep st
  let st := c.bills.foldl mergeBillStep st
  let st := c.budgets.foldl mergeBudgetStep st
  let st := c.goals.foldl mergeGoalStep st
  let st := c.goalContributions.foldl mergeContributionStep st
  (st.db, ⟨true, .merge, st.summary, st.errors⟩)

/-! ### Encryption module (backupService.ts:187-232)

The Node `crypto` primitives are modelled symbolically (ideal KDF and ideal
authenticated cipher): the PBKDF2-derived key is determined by and identifies
the `(password, salt)` pair, an AES-256-GCM ciphertext is determined by key,
IV and plaintext, and its authentication tag verifies exactly when key, IV and
ciphertext all match the ones used at encryption time — the guarantees the
real primitives give up to cryptographic collision/forgery probability.  The
fresh random `salt`/`iv` of `encryptBackup` are externalized as parameters.
`JSON.stringify`/`JSON.parse` of the snapshot are modelled as the identity on
`BackupData`. -/

/-- Model of `crypto.pbkdf2Sync(password, salt, 100000, 32, 'sha256')`, symbolic. -/
def pbkdf2Key (password salt : String) : String × String := (password, salt)

/-- A symbolic AES-256-GCM ciphertext (the base64 `data` field). -/
structure CipherBlob where
  key : String × String
  iv : String
  plain : BackupData
deriving DecidableEq, Repr

/-- A symbolic GCM authentication tag. -/
structure AuthTag where
  key : String × String
  iv : String
  plain : BackupData
deriving DecidableEq, Repr

/-- Model of `cipher.getAuthTag()`: the tag the cipher produces for this blob. -/
def gcmAuthTag (c : CipherBlob) : AuthTag := ⟨c.key, c.iv, c.plain⟩

structure EncryptedBackupData where
  version : Int
  algorithm : String
  salt : String
  iv : String
  authTag : AuthTag
  data : CipherBlob
deriving DecidableEq, Repr

/-- Source `backupService.encryptBackup`; `salt` and `iv` stand for the two
`crypto.randomBytes` draws. -/
def encryptBackup (backup : BackupData) (password : String) (salt iv : String) :
    EncryptedBackupData :=
  let key := pbkdf2Key password salt
  let blob : CipherBlob := ⟨key, iv, backup⟩
  ⟨1, "aes-256-gcm", salt, iv, gcmAuthTag blob, blob⟩

/-- Source `backupService.decryptBackup`: re-derive the key from the stored salt and
the caller's password, then GCM-authenticate and decrypt; `decipher.final`
throws (here: `.error`) whenever the tag does not verify, and only a verified
payload is ever parsed. -/
def decryptBackup (encryptedData : EncryptedBackupData) (password : String) :
    Except String BackupData :=
  let key := pbkdf2Key password encryptedData.salt
  if encryptedData.data.key = key ∧ encryptedData.data.iv = encryptedData.iv
      ∧ encryptedData.authTag = gcmAuthTag encryptedData.data then
    .ok encryptedData.data.plain
  else .error "Unsupported state or unable to authenticate data"

/-! ### Import dispatch (backupService.ts:638 `importWithOptions`) -/

/-- The untrusted request payload: `isEncryptedBackup` (backupService.ts:234)
duck-types on `encrypted === true`, resolved here as a tagged union. -/
inductive ImportPayload where
  | plain (backup : BackupData)
  | encryptedPayload (env : EncryptedBackupData)
deriving DecidableEq, Repr

/-- The tail of `importWithOptions` after any decryption: structural
validation, then dispatch to the merge or replace strategy. -/
def importValidated (db : DB) (backup : BackupData) (options : ImportOptions) :
    DB × ImportResult :=
  let validationErrors := validateBackupStructure backup
  if validationErrors ≠ [] then
    (db, ⟨false, options.mode, createEmptySummary, validationErrors⟩)
  else
    match options.mode with
    | .merge => importMerge db backup
    | .replace =>
      let (db', existingResult) := importReplace db backup
      let c := getCollections backup
      (db',
       ⟨existingResult.success, .replace,
        { accountsAdded := c.accounts.length, accountsSkipped := 0,
          categoriesAdded := c.categories.length, categoriesSkipped := 0,
          transactionsAdded := c.transactions.length, transactionsSkipped := 0,
          billsAdded := c.bills.length, billsSkipped := 0,
          goalsAdded := c.goals.length, goalsSkipped := 0,
          budgetsAdded := c.budgets.length, budgetsSkipped := 0,
          patternsAdded := c.recurringPatterns.length, patternsSkipped := 0,
          contributionsAdded := c.goalContributions.length, contributionsSkipped := 0 },
        match existingResult.error with
        | some e => [⟨"backup", "global", none, e⟩]
        | none => []⟩)

def importWithOptions (db : DB) (data : ImportPayload) (options : ImportOptions) :
    DB × ImportResult :=
  match data with
  | .encryptedPayload env =>
    match options.password with
    | none =>
      (db, ⟨false, options.mode, createEmptySummary,
            [⟨"backup", "global", none, "Password required for encrypted backup"⟩]⟩)
    | some pw =>
      if pw = "" then
        (db, ⟨false, options.mode, createEmptySummary,
              [⟨"backup", "global", none, "Password required for encrypted backup"⟩]⟩)
      else
        match decryptBackup env pw with
        | .error _ =>
          (db, ⟨false, options.mode, createEmptySummary,
                [⟨"backup", "global", none,
                  "Decryption failed - incorrect password or corrupted file"⟩]⟩)
        | .ok backup => importValidated db backup options
  | .plain backup => importValidated db backup options

/-! ### CSV export (backupService.ts:20-42, 98-132) -/

/-- Semantics of JS `x || dflt` on strings, where an empty string (resp. absent value)
is falsy. -/
def jsOr (x : Option String) (dflt : String) : String :=
  match x with
  | none => dflt
  | some s => if s = "" then dflt else s

/-- Model of `String#padStart(2, '0')`. -/
def pad2 (s : String) : String :=
  if s.length < 2 then String.mk (List.replicate (2 - s.length) '0') ++ s else s

/-- Proleptic-Gregorian (year, month 1-12, day 1-31) of a day count from the
Unix epoch; the `Date#getFullYear/getMonth/getDate` decomposition (the host
is taken to run in UTC). -/
def civilFromDays (z0 : Int) : Int × Int × Int :=
  let z := z0 + 719468
  let era := Int.fdiv z 146097
  let doe := z - era * 146097
  let yoe := (doe - doe / 1460 + doe / 36524 - doe / 146096) / 365
  let y := yoe + era * 400
  let doy := doe - (365 * yoe + yoe / 4 - yoe / 100)
  let mp := (5 * doy + 2) / 153
  let d := doy - (153 * mp + 2) / 5 + 1
  let m := mp + (if mp < 10 then 3 else -9)
  (if m ≤ 2 then y + 1 else y, m, d)

/-- Source `formatDate` (backupService.ts:20): the switch on the three supported
formats, any other string falling through to `MM/DD/YYYY`. -/
def formatDate (timestamp : Int) (dateFormat : String) : String :=
  let (y, m, d) := civilFromDays (Int.fdiv timestamp 86400000)
  let year := toString y
  let month := pad2 (toString m)
  let day := pad2 (toString d)
  if dateFormat == "DD/MM/YYYY" then day ++ "/" ++ month ++ "/" ++ year
  else if dateFormat == "YYYY-MM-DD" then year ++ "-" ++ month ++ "-" ++ day
  else month ++ "/" ++ day ++ "/" ++ year

/-- Source `escapeCSV` (backupService.ts:36): falsy values become `""`; a value
containing a comma, double quote or newline is wrapped in double quotes with
internal quotes doubled.  The JS `includes` test and the global regex
`replace(/"/g, fun)` are modelled at the character-list level (the core
`String.contains`/`String.replace` functions have identical semantics here but
do not reduce inside proofs). -/
def escapeCSV (val : Option String) : String :=
  match val with
  | none => ""
  | some v =>
    if v = "" then ""
    else if v.data.contains ',' || v.data.contains '"' || v.data.contains '\n' then
      "\"" ++ String.mk (v.data.flatMap fun ch => if ch = '"' then ['"', '"'] else [ch]) ++ "\""
    else v

/-- Model of `Number#toFixed(2)` on a rational: round to the nearest hundredth, ties
away from zero toward the larger candidate (the ES `toFixed` rule); exact for
amounts that are exactly representable. -/
def toFixed2 (x : ℚ) : String :=
  let sign := if x < 0 then "-" else ""
  let n := ⌊|x| * 100 + 1 / 2⌋
  let fr := (n % 100).toNat
  sign ++ toString (n / 100) ++ "." ++ String.mk [Nat.digitChar (fr / 10), Nat.digitChar (fr % 10)]

def txTypeStr : TxType → String
  | .income => "income"
  | .expense => "expense"
  | .transfer => "transfer"

/-- Model of `new Map(...).get(k)`: last binding of `k` wins. -/
def mapGet (m : List (String × String)) (k : String) : Option String :=
  m.reverse.lookup k

/-- The seven-element row array built for one transaction (backupService.ts:119-129),
before `join(',')`. -/
def csvFields (accountMap categoryMap : List (String × String)) (dateFormat : String)
    (t : Transaction) : List String :=
  [formatDate t.date dateFormat,
   escapeCSV t.description,
   toFixed2 t.amount,
   txTypeStr t.type,
   escapeCSV (some (jsOr (mapGet accountMap t.account_id) "Unknown")),
   escapeCSV (some (match t.category_id with
     | none => ""
     | some cid => if cid = "" then "" else jsOr (mapGet categoryMap cid) "")),
   escapeCSV t.notes]

def csvRow (accountMap categoryMap : List (String × String)) (dateFormat : String)
    (t : Transaction) : String :=
  String.intercalate "," (csvFields accountMap categoryMap dateFormat t)

def csvHeaders : List String :=
  ["Date", "Description", "Amount", "Type", "Account", "Category", "Notes"]

structure CSVOptions where
  startDate : Option Int
  endDate : Option Int
  dateFormat : Option String
deriving DecidableEq, Repr

/-- Semantics of JS numeric truthiness of `options.startDate` / `options.endDate`. -/
def truthyInt : Option Int → Bool
  | none => false
  | some n => n ≠ 0

/-- Source `backupService.exportCSV`: transactions ordered by date descending,
optionally date-filtered, ids resolved through name maps, one row per
transaction under the seven-column header. -/
def exportCSV (db : DB) (options : CSVOptions) : String :=
  let dateFormat := jsOr options.dateFormat "MM/DD/YYYY"
  let transactions := db.transactions.mergeSort fun a b => decide (b.date ≤ a.date)
  let transactions :=
    if truthyInt options.startDate && truthyInt options.endDate then
      transactions.filter fun t =>
        options.startDate.getD 0 ≤ t.date && t.date ≤ options.endDate.getD 0
    else transactions
  let accountMap := db.accounts.map fun a => (a.id, a.name)
  let categoryMap := db.categories.map fun c => (c.id, c.name)
  String.intercalate "\n"
    (String.intercalate "," csvHeaders ::
      transactions.map (csvRow accountMap categoryMap dateFormat))

/-! ### Route-level "any records added" heuristic (routes/backup.ts:79-85) -/

/-- Model of `Object.values(result.summary)` in the 16-key insertion order common to
`createEmptySummary`, the merge-updated summary (field updates preserve key
order) and the replace-mode summary literal. -/
def summaryValues (s : Summary) : List Nat :=
  [s.accountsAdded, s.accountsSkipped, s.categoriesAdded, s.categoriesSkipped,
   s.transactionsAdded, s.transactionsSkipped, s.billsAdded, s.billsSkipped,
   s.goalsAdded, s.goalsSkipped, s.budgetsAdded, s.budgetsSkipped,
   s.patternsAdded, s.patternsSkipped, s.contributionsAdded, s.contributionsSkipped]

/-- Heuristic `Object.values(summary).some((v, i) => i % 2 === 0 && v > 0)`. -/
def anyAddedHeuristic (s : Summary) : Bool :=
  (summaryValues s).enum.any fun p => p.1 % 2 == 0 && decide (0 < p.2)

/-- The explicit alternative: the sum of the eight `*Added` fields. -/
def sumAdded (s : Summary) : Nat :=
  s.accountsAdded + s.categoriesAdded + s.transactionsAdded + s.billsAdded
    + s.goalsAdded + s.budgetsAdded + s.patternsAdded + s.contributionsAdded

/-! ## Generic lemmas about one merge phase

Every merge phase is a `List.foldl` of a step function that, per record,
either counts a skip (id already present), appends one error, or inserts the
record.  The lemmas in this section are stated for an abstract step through
the behaviours the eight concrete steps share. -/

section Phase

variable {α : Type}

/-- Across a phase, errors only accumulate at the end of the list. -/
theorem foldl_errors_append (step : MergeSt → α → MergeSt)
    (hstep : ∀ st r, ∃ es, (step st r).errors = st.errors ++ es) :
    ∀ (l : List α) (st : MergeSt), ∃ es, (l.foldl step st).errors = st.errors ++ es := by
  intro l
  induction l with
  | nil => intro st; exact ⟨[], by simp⟩
  | cons r l ih =>
    intro st
    obtain ⟨e1, h1⟩ := hstep st r
    obtain ⟨e2, h2⟩ := ih (step st r)
    exact ⟨e1 ++ e2, by simp [List.foldl_cons, h2, h1]⟩

/-- Ids present in a phase's collection stay present across the phase. -/
theorem foldl_ids_mono (step : MergeSt → α → MergeSt) (getIds : DB → List String)
    (hstep : ∀ st r i, (getIds st.db).contains i = true →
      (getIds (step st r).db).contains i = true) :
    ∀ (l : List α) (st : MergeSt) (i : String), (getIds st.db).contains i = true →
      (getIds ((l.foldl step st)).db).contains i = true := by
  intro l
  induction l with
  | nil => intro st i h; simpa using h
  | cons r l ih =>
    intro st i h
    exact ih (step st r) i (hstep st r i h)

/-- Any id present after a phase was already present before it or belongs to a
record of the list that passed the phase's referential guard. -/
theorem foldl_ids_bound (step : MergeSt → α → MergeSt) (getIds : DB → List String)
    (rid : α → String) (guard : DB → α → Bool)
    (hstep : ∀ st r i, (getIds (step st r).db).contains i = true →
      (getIds st.db).contains i = true ∨ (rid r = i ∧ guard st.db r = true))
    (hguard : ∀ st r x, guard (step st r).db x = guard st.db x) :
    ∀ (l : List α) (st : MergeSt) (i : String),
      (getIds ((l.foldl step st)).db).contains i = true →
      (getIds st.db).contains i = true ∨ ∃ r ∈ l, rid r = i ∧ guard st.db r = true := by
  intro l
  induction l with
  | nil => intro st i h; exact .inl (by simpa using h)
  | cons r l ih =>
    intro st i h
    rcases ih (step st r) i (by simpa using h) with h' | ⟨r', hr', hreq, hg⟩
    · rcases hstep st r i h' with h'' | ⟨hreq, hg⟩
      · exact .inl h''
      · exact .inr ⟨r, by simp, hreq, hg⟩
    · refine .inr ⟨r', by simp [hr'], hreq, ?_⟩
      rwa [hguard] at hg

/-- When a whole phase reports no new error, every processed record's id is
present in the phase's collection afterwards (it was skipped or inserted). -/
theorem foldl_no_error_mem (step : MergeSt → α → MergeSt) (getIds : DB → List String)
    (rid : α → String)
    (herr : ∀ st r, ∃ es, (step st r).errors = st.errors ++ es)
    (hmono : ∀ st r i, (getIds st.db).contains i = true →
      (getIds (step st r).db).contains i = true)
    (hne : ∀ st r, (step st r).errors = st.errors →
      (getIds (step st r).db).contains (rid r) = true) :
    ∀ (l : List α) (st : MergeSt), ((l.foldl step st)).errors = st.errors →
      ∀ r ∈ l, (getIds ((l.foldl step st)).db).contains (rid r) = true := by
  intro l
  induction l with
  | nil => intro st _ r hr; cases hr
  | cons r l ih =>
    intro st hE r' hr'
    obtain ⟨e1, h1⟩ := herr st r
    obtain ⟨e2, h2⟩ := foldl_errors_append step herr l (step st r)
    have hE' : ((r :: l).foldl step st).errors = st.errors ++ (e1 ++ e2) := by
      simp [List.foldl_cons, h2, h1]
    have hnil : e1 ++ e2 = [] := by
      have := hE'.symm.trans hE
      simpa using this
    have he1 : e1 = [] := (List.append_eq_nil.mp hnil).1
    have he2 : e2 = [] := (List.append_eq_nil.mp hnil).2
    have hstepE : (step st r).errors = st.errors := by simp [h1, he1]
    have hfoldE : (l.foldl step (step st r)).errors = (step st r).errors := by
      simp [h2, he2]
    rcases List.mem_cons.mp hr' with rfl | hmem
    · have := hne st r' hstepE
      simpa [List.foldl_cons] using
        foldl_ids_mono step getIds hmono l (step st r') (rid r') this
    · simpa [List.foldl_cons] using ih (step st r) hfoldE r' hmem

/-- When every record of the list already has its id in the phase's
collection, the phase is pure skip-counting: the state is unchanged except
the skip counter is bumped once per record. -/
theorem foldl_skip (step : MergeSt → α → MergeSt) (getIds : DB → List String)
    (rid : α → String) (bump : Summary → Summary)
    (hstep : ∀ st r, (getIds st.db).contains (rid r) = true →
      step st r = { st with summary := bump st.summary }) :
    ∀ (l : List α) (st : MergeSt), (∀ r ∈ l, (getIds st.db).contains (rid r) = true) →
      l.foldl step st = { st with summary := bump^[l.length] st.summary } := by
  intro l
  induction l with
  | nil => intro st _; simp
  | cons r l ih =>
    intro st h
    have h0 : (getIds st.db).contains (rid r) = true := h r (by simp)
    have hrest : ∀ x ∈ l,
        (getIds ({ st with summary := bump st.summary } : MergeSt).db).contains (rid x) = true :=
      fun x hx => h x (by simp [hx])
    rw [List.foldl_cons, hstep st r h0, ih _ hrest]
    simp [Function.iterate_succ_apply]

/-- A record whose id is fresh but whose referential guard fails (and stays
failing, its id being unique in the batch) is recorded as exactly one
structured error and is never inserted by the phase. -/
theorem foldl_dangling (step : MergeSt → α → MergeSt) (getIds : DB → List String)
    (rid : α → String) (guard : DB → α → Bool) (emit : α → ImportError)
    (hstep : ∀ st r, (getIds st.db).contains (rid r) = false → guard st.db r = false →
      step st r = { st with errors := st.errors ++ [emit r] })
    (herr : ∀ st r, ∃ es, (step st r).errors = st.errors ++ es)
    (hbound : ∀ st r i, (getIds (step st r).db).contains i = true →
      (getIds st.db).contains i = true ∨ (rid r = i ∧ guard st.db r = true))
    (hguard : ∀ st r x, guard (step st r).db x = guard st.db x) :
    ∀ (l : List α) (st : MergeSt) (tx : α), tx ∈ l →
      (∀ t ∈ l, rid t = rid tx → t = tx) →
      (getIds st.db).contains (rid tx) = false → guard st.db tx = false →
      emit tx ∈ (l.foldl step st).errors
        ∧ (getIds ((l.foldl step st)).db).contains (rid tx) = false := by
  intro l
  induction l with
  | nil => intro st tx htx; cases htx
  | cons r l ih =>
    intro st tx htx huniq hid hg
    rcases List.mem_cons.mp htx with rfl | hmem
    · have hstepEq := hstep st tx hid hg
      rw [List.foldl_cons, hstepEq]
      constructor
      · obtain ⟨es, hes⟩ := foldl_errors_append step herr l _
        rw [hes]
        exact List.mem_append_left _ (by simp)
      · cases hF : (getIds ((l.foldl step
            ({ st with errors := st.errors ++ [emit tx] } : MergeSt))).db).contains (rid tx)
        · rfl
        · exfalso
          rcases foldl_ids_bound step getIds rid guard hbound hguard l _ (rid tx) hF with
            hin | ⟨t, ht, hteq, htg⟩
          · rw [show ({ st with errors := st.errors ++ [emit tx] } : MergeSt).db = st.db from rfl]
              at hin
            rw [hin] at hid; cases hid
          · have : t = tx := huniq t (by simp [ht]) hteq
            subst this
            rw [show ({ st with errors := st.errors ++ [emit t] } : MergeSt).db = st.db from rfl]
              at htg
            rw [htg] at hg; cases hg
    · have hid1 : (getIds (step st r).db).contains (rid tx) = false := by
        cases hF : (getIds (step st r).db).contains (rid tx)
        · rfl
        · exfalso
          rcases hbound st r (rid tx) hF with h' | ⟨hreq, hg'⟩
          · rw [h'] at hid; cases hid
          · have : r = tx := huniq r (by simp) hreq
            subst this
            rw [hg'] at hg; cases hg
      have hg1 : guard (step st r).db tx = false := by rw [hguard]; exact hg
      have huniq1 : ∀ t ∈ l, rid t = rid tx → t = tx :=
        fun t ht => huniq t (by simp [ht])
      simpa [List.foldl_cons] using ih (step st r) tx hmem huniq1 hid1 hg1

/-- A record whose id is fresh and whose full insert guard holds ends up
inserted by the phase. -/
theorem foldl_valid_insert (step : MergeSt → α → MergeSt) (getIds : DB → List String)
    (rid : α → String) (okG : DB → α → Bool)
    (hstep : ∀ st r, (getIds st.db).contains (rid r) = false → okG st.db r = true →
      (getIds (step st r).db).contains (rid r) = true)
    (hmono : ∀ st r i, (getIds st.db).contains i = true →
      (getIds (step st r).db).contains i = true)
    (hok : ∀ st r x, okG (step st r).db x = okG st.db x) :
    ∀ (l : List α) (st : MergeSt) (tx : α), tx ∈ l →
      okG st.db tx = true →
      (getIds ((l.foldl step st)).db).contains (rid tx) = true
        ∨ (getIds st.db).contains (rid tx) = true := by
  intro l
  induction l with
  | nil => intro st tx htx; cases htx
  | cons r l ih =>
    intro st tx htx hok0
    rcases List.mem_cons.mp htx with rfl | hmem
    · cases hid : (getIds st.db).contains (rid tx)
      · have h1 := hstep st tx hid hok0
        exact .inl (by simpa [List.foldl_cons] using
          foldl_ids_mono step getIds hmono l (step st tx) (rid tx) h1)
      · exact .inr rfl
    · have hok1 : okG (step st r).db tx = true := by rw [hok]; exact hok0
      rcases ih (step st r) tx hmem hok1 with h | h
      · exact .inl (by simpa [List.foldl_cons] using h)
      · cases hid : (getIds st.db).contains (rid tx)
        · exact .inl (by
            simpa [List.foldl_cons] using
              foldl_ids_mono step getIds hmono l (step st r) (rid tx) h)
        · exact .inr rfl

end Phase

/-! ## Step facts for the category phase -/

theorem mergeCategoryStep_errors (st : MergeSt) (c : Category) :
    ∃ es, (mergeCategoryStep st c).errors = st.errors ++ es := by
  unfold mergeCategoryStep
  split
  · exact ⟨[], by simp⟩
  · split
    · exact ⟨[], by simp⟩
    · exact ⟨_, rfl⟩

theorem mergeCategoryStep_frame (st : MergeSt) (c : Category) :
    (mergeCategoryStep st c).db
      = { st.db with categories := (mergeCategoryStep st c).db.categories } := by
  unfold mergeCategoryStep
  split
  · rfl
  · split
    · rfl
    · rfl

theorem mergeCategoryStep_ids_mono (st : MergeSt) (c : Category) (i : String)
    (h : (categoryIds st.db.categories).contains i = true) :
    (categoryIds (mergeCategoryStep st c).db.categories).contains i = true := by
  unfold mergeCategoryStep
  split
  · exact h
  · split
    · simp [addCategory, categoryIds] at h ⊢
      exact .inl h
    · exact h

theorem mergeCategoryStep_ids_bound (st : MergeSt) (c : Category) (i : String)
    (h : (categoryIds (mergeCategoryStep st c).db.categories).contains i = true) :
    (categoryIds st.db.categories).contains i = true ∨ (c.id = i ∧ True) := by
  revert h
  unfold mergeCategoryStep
  split
  · exact fun h => .inl h
  · split
    · intro h
      simp [addCategory, categoryIds] at h
      rcases h with h | h
      · exact .inl (by simp [categoryIds, h])
      · exact .inr ⟨h.symm, trivial⟩
    · exact fun h => .inl h

theorem mergeCategoryStep_cases (st : MergeSt) (c : Category) :
    (categoryIds (mergeCategoryStep st c).db.categories).contains c.id = true
      ∨ ∃ e, (mergeCategoryStep st c).errors = st.errors ++ [e] := by
  unfold mergeCategoryStep
  split
  · next hc => exact .inl hc
  · split
    · refine .inl ?_
      simp [addCategory, categoryIds]
    · exact .inr ⟨_, rfl⟩

theorem mergeCategoryStep_skip (st : MergeSt) (c : Category)
    (h : (categoryIds st.db.categories).contains c.id = true) :
    mergeCategoryStep st c
      = { st with summary :=
            { st.summary with categoriesSkipped := st.summary.categoriesSkipped + 1 } } := by
  unfold mergeCategoryStep
  rw [if_pos h]

theorem catPhase_frame : ∀ (l : List Category) (st : MergeSt),
    (l.foldl mergeCategoryStep st).db
      = { st.db with categories := (l.foldl mergeCategoryStep st).db.categories } := by
  intro l
  induction l with
  | nil => intro st; rfl
  | cons c l ih =>
    intro st
    rw [List.foldl_cons]
    rw [ih (mergeCategoryStep st c), mergeCategoryStep_frame st c]

/-! ## Step facts for the accounts phase -/

theorem mergeAccountStep_errors (st : MergeSt) (r : Account) :
    ∃ es, (mergeAccountStep st r).errors = st.errors ++ es := by
  unfold mergeAccountStep
  split
  · exact ⟨[], by simp⟩
  · split
    · exact ⟨[], by simp⟩
    · exact ⟨_, rfl⟩

theorem mergeAccountStep_frame (st : MergeSt) (r : Account) :
    (mergeAccountStep st r).db
      = { st.db with accounts := (mergeAccountStep st r).db.accounts } := by
  unfold mergeAccountStep
  split
  · rfl
  · split
    · rfl
    · rfl

theorem mergeAccountStep_ids_mono (st : MergeSt) (r : Account) (i : String)
    (h : (accountIds st.db.accounts).contains i = true) :
    (accountIds (mergeAccountStep st r).db.accounts).contains i = true := by
  unfold mergeAccountStep
  split
  · exact h
  · split
    · simp [addAccount, accountIds] at h ⊢
      exact .inl h
    · exact h

theorem mergeAccountStep_cases (st : MergeSt) (r : Account) :
    (accountIds (mergeAccountStep st r).db.accounts).contains r.id = true
      ∨ ∃ e, (mergeAccountStep st r).errors = st.errors ++ [e] := by
  unfold mergeAccountStep
  split
  · next hc => exact .inl hc
  · split
    · refine .inl ?_
      simp [addAccount, accountIds]
    · exact .inr ⟨_, rfl⟩

theorem mergeAccountStep_skip (st : MergeSt) (r : Account)
    (h : (accountIds st.db.accounts).contains r.id = true) :
    mergeAccountStep st r
      = { st with summary :=
            { st.summary with accountsSkipped := st.summary.accountsSkipped + 1 } } := by
  unfold mergeAccountStep
  rw [if_pos h]

theorem accPhase_frame : ∀ (l : List Account) (st : MergeSt),
    (l.foldl mergeAccountStep st).db
      = { st.db with accounts := (l.foldl mergeAccountStep st).db.accounts } := by
  intro l
  induction l with
  | nil => intro st; rfl
  | cons r l ih =>
    intro st
    rw [List.foldl_cons]
    rw [ih (mergeAccountStep st r), mergeAccountStep_frame st r]

/-! ## Step facts for the recurringPatterns phase -/

theorem mergePatternStep_errors (st : MergeSt) (r : RecurringPattern) :
    ∃ es, (mergePatternStep st r).errors = st.errors ++ es := by
  unfold mergePatternStep
  split
  · exact ⟨[], by simp⟩
  · split
    · exact ⟨[], by simp⟩
    · exact ⟨_, rfl⟩

theorem mergePatternStep_frame (st : MergeSt) (r : RecurringPattern) :
    (mergePatternStep st r).db
      = { st.db with recurringPatterns := (mergePatternStep st r).db.recurringPatterns } := by
  unfold mergePatternStep
  split
  · rfl
  · split
    · rfl
    · rfl

theorem mergePatternStep_ids_mono (st : MergeSt) (r : RecurringPattern) (i : String)
    (h : (patternIds st.db.recurringPatterns).contains i = true) :
    (patternIds (mergePatternStep st r).db.recurringPatterns).contains i = true := by
  unfold mergePatternStep
  split
  · exact h
  · split
    · simp [addPattern, patternIds] at h ⊢
      exact .inl h
    · exact h

theorem mergePatternStep_cases (st : MergeSt) (r : RecurringPattern) :
    (patternIds (mergePatternStep st r).db.recurringPatterns).contains r.id = true
      ∨ ∃ e, (mergePatternStep st r).errors = st.errors ++ [e] := by
  unfold mergePatternStep
  split
  · next hc => exact .inl hc
  · split
    · refine .inl ?_
      simp [addPattern, patternIds]
    · exact .inr ⟨_, rfl⟩

theorem mergePatternStep_skip (st : MergeSt) (r : RecurringPattern)
    (h : (patternIds st.db.recurringPatterns).contains r.id = true) :
    mergePatternStep st r
      = { st with summary :=
            { st.summary with patternsSkipped := st.summary.patternsSkipped + 1 } } := by
  unfold mergePatternStep
  rw [if_pos h]

theorem patPhase_frame : ∀ (l : List RecurringPattern) (st : MergeSt),
    (l.foldl mergePatternStep st).db
      = { st.db with recurringPatterns := (l.foldl mergePatternStep st).db.recurringPatterns } := by
  intro l
  induction l with
  | nil => intro st; rfl
  | cons r l ih =>
    intro st
    rw [List.foldl_cons]
    rw [ih (mergePatternStep st r), mergePatternStep_frame st r]

/-! ## Step facts for the bills phase -/

theorem mergeBillStep_errors (st : MergeSt) (r : Bill) :
    ∃ es, (mergeBillStep st r).errors = st.errors ++ es := by
  unfold mergeBillStep
  split
  · exact ⟨[], by simp⟩
  · split
    · exact ⟨[], by simp⟩
    · exact ⟨_, rfl⟩

theorem mergeBillStep_frame (st : MergeSt) (r : Bill) :
    (mergeBillStep st r).db
      = { st.db with bills := (mergeBillStep st r).db.bills } := by
  unfold mergeBillStep
  split
  · rfl
  · split
    · rfl
    · rfl

theorem mergeBillStep_ids_mono (st : MergeSt) (r : Bill) (i : String)
    (h : (billIds st.db.bills).contains i = true) :
    (billIds (mergeBillStep st r).db.bills).contains i = true := by
  unfold mergeBillStep
  split
  · exact h
  · split
    · simp [addBill, billIds] at h ⊢
      exact .inl h
    · exact h

theorem mergeBillStep_cases (st : MergeSt) (r : Bill) :
    (billIds (mergeBillStep st r).db.bills).contains r.id = true
      ∨ ∃ e, (mergeBillStep st r).errors = st.errors ++ [e] := by
  unfold mergeBillStep
  split
  · next hc => exact .inl hc
  · split
    · refine .inl ?_
      simp [addBill, billIds]
    · exact .inr ⟨_, rfl⟩

theorem mergeBillStep_skip (st : MergeSt) (r : Bill)
    (h : (billIds st.db.bills).contains r.id = true) :
    mergeBillStep st r
      = { st with summary :=
            { st.summary with billsSkipped := st.summary.billsSkipped + 1 } } := by
  unfold mergeBillStep
  rw [if_pos h]

theorem billPhase_frame : ∀ (l : List Bill) (st : MergeSt),
    (l.foldl mergeBillStep st).db
      = { st.db with bills := (l.foldl mergeBillStep st).db.bills } := by
  intro l
  induction l with
  | nil => intro st; rfl
  | cons r l ih =>
    intro st
    rw [List.foldl_cons]
    rw [ih (mergeBillStep st r), mergeBillStep_frame st r]

/-! ## Step facts for the budgets phase -/

theorem mergeBudgetStep_errors (st : MergeSt) (r : Budget) :
    ∃ es, (mergeBudgetStep st r).errors = st.errors ++ es := by
  unfold mergeBudgetStep
  split
  · exact ⟨[], by simp⟩
  · split
    · exact ⟨[], by simp⟩
    · exact ⟨_, rfl⟩

theorem mergeBudgetStep_frame (st : MergeSt) (r : Budget) :
    (mergeBudgetStep st r).db
      = { st.db with budgets := (mergeBudgetStep st r).db.budgets } := by
  unfold mergeBudgetStep
  split
  · rfl
  · split
    · rfl
    · rfl

theorem mergeBudgetStep_ids_mono (st : MergeSt) (r : Budget) (i : String)
    (h : (budgetIds st.db.budgets).contains i = true) :
    (budgetIds (mergeBudgetStep st r).db.budgets).contains i = true := by
  unfold mergeBudgetStep
  split
  · exact h
  · split
    · simp [addBudget, budgetIds] at h ⊢
      exact .inl h
    · exact h

theorem mergeBudgetStep_cases (st : MergeSt) (r : Budget) :
    (budgetIds (mergeBudgetStep st r).db.budgets).contains r.id = true
      ∨ ∃ e, (mergeBudgetStep st r).errors = st.errors ++ [e] := by
  unfold mergeBudgetStep
  split
  · next hc => exact .inl hc
  · split
    · refine .inl ?_
      simp [addBudget, budgetIds]
    · exact .inr ⟨_, rfl⟩

theorem mergeBudgetStep_skip (st : MergeSt) (r : Budget)
    (h : (budgetIds st.db.budgets).contains r.id = true) :
    mergeBudgetStep st r
      = { st with summary :=
            { st.summary with budgetsSkipped := st.summary.budgetsSkipped + 1 } } := by
  unfold mergeBudgetStep
  rw [if_pos h]

theorem budPhase_frame : ∀ (l : List Budget) (st : MergeSt),
    (l.foldl mergeBudgetStep st).db
      = { st.db with budgets := (l.foldl mergeBudgetStep st).db.budgets } := by
  intro l
  induction l with
  | nil => intro st; rfl
  | cons r l ih =>
    intro st
    rw [List.foldl_cons]
    rw [ih (mergeBudgetStep st r), mergeBudgetStep_frame st r]

/-! ## Step facts for the goals phase -/

theorem mergeGoalStep_errors (st : MergeSt) (r : Goal) :
    ∃ es, (mergeGoalStep st r).errors = st.errors ++ es := by
  unfold mergeGoalStep
  split
  · exact ⟨[], by simp⟩
  · split
    · exact ⟨[], by simp⟩
    · exact ⟨_, rfl⟩

theorem mergeGoalStep_frame (st : MergeSt) (r : Goal) :
    (mergeGoalStep st r).db
      = { st.db with goals := (mergeGoalStep st r).db.goals } := by
  unfold mergeGoalStep
  split
  · rfl
  · split
    · rfl
    · rfl

theorem mergeGoalStep_ids_mono (st : MergeSt) (r : Goal) (i : String)
    (h : (goalIds st.db.goals).contains i = true) :
    (goalIds (mergeGoalStep st r).db.goals).contains i = true := by
  unfold mergeGoalStep
  split
  · exact h
  · split
    · simp [addGoal, goalIds] at h ⊢
      exact .inl h
    · exact h

theorem mergeGoalStep_cases (st : MergeSt) (r : Goal) :
    (goalIds (mergeGoalStep st r).db.goals).contains r.id = true
      ∨ ∃ e, (mergeGoalStep st r).errors = st.errors ++ [e] := by
  unfold mergeGoalStep
  split
  · next hc => exact .inl hc
  · split
    · refine .inl ?_
      simp [addGoal, goalIds]
    · exact .inr ⟨_, rfl⟩

theorem mergeGoalStep_skip (st : MergeSt) (r : Goal)
    (h : (goalIds st.db.goals).contains r.id = true) :
    mergeGoalStep st r
      = { st with summary :=
            { st.summary with goalsSkipped := st.summary.goalsSkipped + 1 } } := by
  unfold mergeGoalStep
  rw [if_pos h]

theorem goalPhase_frame : ∀ (l : List Goal) (st : MergeSt),
    (l.foldl mergeGoalStep st).db
      = { st.db with goals := (l.foldl mergeGoalStep st).db.goals } := by
  intro l
  induction l with
  | nil => intro st; rfl
  | cons r l ih =>
    intro st
    rw [List.foldl_cons]
    rw [ih (mergeGoalStep st r), mergeGoalStep_frame st r]

/-! ## Step facts for the transactions phase -/

theorem mergeTransactionStep_errors (st : MergeSt) (t : Transaction) :
    ∃ es, (mergeTransactionStep st t).errors = st.errors ++ es := by
  unfold mergeTransactionStep
  split
  · exact ⟨[], by simp⟩
  · split
    · exact ⟨_, rfl⟩
    · split
      · exact ⟨[], by simp⟩
      · exact ⟨_, rfl⟩

theorem mergeTransactionStep_frame (st : MergeSt) (t : Transaction) :
    (mergeTransactionStep st t).db
      = { st.db with transactions := (mergeTransactionStep st t).db.transactions } := by
  unfold mergeTransactionStep
  split
  · rfl
  · split
    · rfl
    · split
      · rfl
      · rfl

theorem mergeTransactionStep_ids_mono (st : MergeSt) (t : Transaction) (i : String)
    (h : (transactionIds st.db.transactions).contains i = true) :
    (transactionIds (mergeTransactionStep st t).db.transactions).contains i = true := by
  unfold mergeTransactionStep
  split
  · exact h
  · split
    · exact h
    · split
      · simp [addTransaction, transactionIds] at h ⊢
        exact .inl h
      · exact h

theorem mergeTransactionStep_cases (st : MergeSt) (t : Transaction) :
    (transactionIds (mergeTransactionStep st t).db.transactions).contains t.id = true
      ∨ ∃ e, (mergeTransactionStep st t).errors = st.errors ++ [e] := by
  unfold mergeTransactionStep
  split
  · next hc => exact .inl hc
  · split
    · exact .inr ⟨_, rfl⟩
    · split
      · refine .inl ?_
        simp [addTransaction, transactionIds]
      · exact .inr ⟨_, rfl⟩

theorem mergeTransactionStep_skip (st : MergeSt) (t : Transaction)
    (h : (transactionIds st.db.transactions).contains t.id = true) :
    mergeTransactionStep st t
      = { st with summary :=
            { st.summary with transactionsSkipped := st.summary.transactionsSkipped + 1 } } := by
  unfold mergeTransactionStep
  rw [if_pos h]

theorem mergeTransactionStep_ids_bound (st : MergeSt) (t : Transaction) (i : String)
    (h : (transactionIds (mergeTransactionStep st t).db.transactions).contains i = true) :
    (transactionIds st.db.transactions).contains i = true
      ∨ (t.id = i ∧ (accountIds st.db.accounts).contains t.account_id = true) := by
  revert h
  unfold mergeTransactionStep
  split
  · exact fun h => .inl h
  · split
    · exact fun h => .inl h
    · next hacc =>
      split
      · intro h
        simp [addTransaction, transactionIds] at h
        rcases h with h | h
        · exact .inl (by simp [transactionIds, h])
        · refine .inr ⟨h.symm, ?_⟩
          simpa using hacc
      · exact fun h => .inl h

theorem mergeTransactionStep_accounts (st : MergeSt) (t : Transaction) :
    (mergeTransactionStep st t).db.accounts = st.db.accounts := by
  rw [mergeTransactionStep_frame]

theorem mergeTransactionStep_categories (st : MergeSt) (t : Transaction) :
    (mergeTransactionStep st t).db.categories = st.db.categories := by
  rw [mergeTransactionStep_frame]

theorem mergeTransactionStep_patterns (st : MergeSt) (t : Transaction) :
    (mergeTransactionStep st t).db.recurringPatterns = st.db.recurringPatterns := by
  rw [mergeTransactionStep_frame]

theorem mergeTransactionStep_dangling (st : MergeSt) (t : Transaction)
    (hid : (transactionIds st.db.transactions).contains t.id = false)
    (hacc : (accountIds st.db.accounts).contains t.account_id = false) :
    mergeTransactionStep st t
      = { st with errors := st.errors ++
          [⟨"transaction", t.id, some "account_id",
            "Referenced account " ++ t.account_id ++ " does not exist"⟩] } := by
  unfold mergeTransactionStep
  rw [if_neg (by simpa using hid), if_pos (by simpa using hacc)]

theorem mergeTransactionStep_valid (st : MergeSt) (t : Transaction)
    (hid : (transactionIds st.db.transactions).contains t.id = false)
    (hacc : (accountIds st.db.accounts).contains t.account_id = true)
    (hcat : (t.category_id.all fun c => (categoryIds st.db.categories).contains c) = true)
    (hpat : (t.recurring_pattern_id.all fun r =>
      (patternIds st.db.recurringPatterns).contains r) = true) :
    (transactionIds (mergeTransactionStep st t).db.transactions).contains t.id = true := by
  have hcheck : checkInsertTransaction st.db t = none := by
    unfold checkInsertTransaction
    rw [if_neg (by simpa using hid), if_neg (by simpa using hacc), if_neg (by simpa using hcat),
        if_neg (by simpa using hpat)]
  unfold mergeTransactionStep
  rw [if_neg (by simpa using hid), if_neg (by simpa using hacc), hcheck]
  simp [addTransaction, transactionIds]

/-! ## Step facts for the goalContributions phase -/

theorem mergeContributionStep_errors (st : MergeSt) (c : GoalContribution) :
    ∃ es, (mergeContributionStep st c).errors = st.errors ++ es := by
  unfold mergeContributionStep
  split
  · exact ⟨[], by simp⟩
  · split
    · exact ⟨_, rfl⟩
    · split
      · exact ⟨[], by simp⟩
      · exact ⟨_, rfl⟩

theorem mergeContributionStep_frame (st : MergeSt) (c : GoalContribution) :
    (mergeContributionStep st c).db
      = { st.db with goalContributions := (mergeContributionStep st c).db.goalContributions } := by
  unfold mergeContributionStep
  split
  · rfl
  · split
    · rfl
    · split
      · rfl
      · rfl

theorem mergeContributionStep_ids_mono (st : MergeSt) (c : GoalContribution) (i : String)
    (h : (contributionIds st.db.goalContributions).contains i = true) :
    (contributionIds (mergeContributionStep st c).db.goalContributions).contains i = true := by
  unfold mergeContributionStep
  split
  · exact h
  · split
    · exact h
    · split
      · simp [addContribution, contributionIds] at h ⊢
        exact .inl h
      · exact h

theorem mergeContributionStep_cases (st : MergeSt) (c : GoalContribution) :
    (contributionIds (mergeContributionStep st c).db.goalContributions).contains c.id = true
      ∨ ∃ e, (mergeContributionStep st c).errors = st.errors ++ [e] := by
  unfold mergeContributionStep
  split
  · next hc => exact .inl hc
  · split
    · exact .inr ⟨_, rfl⟩
    · split
      · refine .inl ?_
        simp [addContribution, contributionIds]
      · exact .inr ⟨_, rfl⟩

theorem mergeContributionStep_skip (st : MergeSt) (c : GoalContribution)
    (h : (contributionIds st.db.goalContributions).contains c.id = true) :
    mergeContributionStep st c
      = { st with summary :=
            { st.summary with contributionsSkipped := st.summary.contributionsSkipped + 1 } } := by
  unfold mergeContributionStep
  rw [if_pos h]

theorem txPhase_frame : ∀ (l : List Transaction) (st : MergeSt),
    (l.foldl mergeTransactionStep st).db
      = { st.db with transactions := (l.foldl mergeTransactionStep st).db.transactions } := by
  intro l
  induction l with
  | nil => intro st; rfl
  | cons r l ih =>
    intro st
    rw [List.foldl_cons]
    rw [ih (mergeTransactionStep st r), mergeTransactionStep_frame st r]

theorem contribPhase_frame : ∀ (l : List GoalContribution) (st : MergeSt),
    (l.foldl mergeContributionStep st).db
      = { st.db with goalContributions := (l.foldl mergeContributionStep st).db.goalContributions } := by
  intro l
  induction l with
  | nil => intro st; rfl
  | cons r l ih =>
    intro st
    rw [List.foldl_cons]
    rw [ih (mergeContributionStep st r), mergeContributionStep_frame st r]

/-! ## Guard facts for the budgets phase -/

theorem mergeBudgetStep_ids_bound (st : MergeSt) (b : Budget) (i : String)
    (h : (budgetIds (mergeBudgetStep st b).db.budgets).contains i = true) :
    (budgetIds st.db.budgets).contains i = true
      ∨ (b.id = i ∧ (categoryIds st.db.categories).contains b.category_id = true) := by
  revert h
  unfold mergeBudgetStep
  split
  · exact fun h => .inl h
  · split
    · next hk =>
      intro h
      simp [addBudget, budgetIds] at h
      rcases h with h | h
      · exact .inl (by simp [budgetIds, h])
      · refine .inr ⟨h.symm, ?_⟩
        revert hk
        unfold checkInsertBudget
        split
        · intro hk; cases hk
        · split
          · intro hk; cases hk
          · next hcat => intro _; simpa using hcat
    · exact fun h => .inl h

theorem mergeBudgetStep_categories (st : MergeSt) (b : Budget) :
    (mergeBudgetStep st b).db.categories = st.db.categories := by
  rw [mergeBudgetStep_frame]

theorem mergeBudgetStep_dangling (st : MergeSt) (b : Budget)
    (hid : (budgetIds st.db.budgets).contains b.id = false)
    (hcat : (categoryIds st.db.categories).contains b.category_id = false) :
    mergeBudgetStep st b
      = { st with errors := st.errors
          ++ [⟨"budget", b.id, none, "FOREIGN KEY constraint failed"⟩] } := by
  have hcheck : checkInsertBudget st.db b = some "FOREIGN KEY constraint failed" := by
    unfold checkInsertBudget
    rw [if_neg (by simpa using hid), if_pos (by simpa using hcat)]
  unfold mergeBudgetStep
  rw [if_neg (by simpa using hid), hcheck]

/-! ## Facts about structural validation -/

theorem validate_structural_nil (b : BackupData) (h : validateBackupStructure b = []) :
    versionErrors b = [] ∧ structureErrors b = [] := by
  unfold validateBackupStructure at h
  by_cases hs : (versionErrors b ++ structureErrors b).isEmpty
  · simpa using hs
  · rw [if_neg hs] at h
    exact absurd (by simp [h]) hs

theorem versionErrors_nil (b : BackupData) (h : versionErrors b = []) : b.version = 1 := by
  unfold versionErrors at h
  by_cases hv : b.version ≠ 1
  · rw [if_pos hv] at h; cases h
  · push_neg at hv; exact hv

theorem structureErrors_nil (b : BackupData) (h : structureErrors b = []) :
    ∀ k ∈ requiredKeys, collPresent b.data k = true := by
  intro k hk
  unfold structureErrors at h
  have h1 : requiredKeys.filter (fun k => !collPresent b.data k) = [] :=
    List.map_eq_nil_iff.mp h
  have h2 := List.filter_eq_nil_iff.mp h1 k hk
  simpa using h2

theorem checkArraysReplace_none (b : BackupData)
    (h : ∀ k ∈ requiredKeys, collPresent b.data k = true) :
    checkArraysReplace b = none := by
  unfold checkArraysReplace
  rw [List.findSome?_eq_none_iff]
  intro k hk
  rw [if_pos (h k hk)]

theorem importReplace_error (db : DB) (b : BackupData) (e : String)
    (h1 : b.version = 1) (h2 : checkArraysReplace b = none)
    (h3 : restoreAll (getCollections b) = .error e) :
    importReplace db b = (db, ⟨false, some e⟩) := by
  unfold importReplace
  rw [if_neg (by simp [h1]), h2, h3]

theorem importValidated_replace_error (db : DB) (b : BackupData) (pw : Option String)
    (e : String) (hv : validateBackupStructure b = [])
    (hR : importReplace db b = (db, ⟨false, some e⟩)) :
    importValidated db b ⟨.replace, pw⟩
      = (db,
         ⟨false, .replace,
          { accountsAdded := (getCollections b).accounts.length, accountsSkipped := 0,
            categoriesAdded := (getCollections b).categories.length, categoriesSkipped := 0,
            transactionsAdded := (getCollections b).transactions.length, transactionsSkipped := 0,
            billsAdded := (getCollections b).bills.length, billsSkipped := 0,
            goalsAdded := (getCollections b).goals.length, goalsSkipped := 0,
            budgetsAdded := (getCollections b).budgets.length, budgetsSkipped := 0,
            patternsAdded := (getCollections b).recurringPatterns.length, patternsSkipped := 0,
            contributionsAdded := (getCollections b).goalContributions.length,
            contributionsSkipped := 0 },
          [⟨"backup", "global", none, e⟩]⟩) := by
  simp [importValidated, hv, hR]

/-! ## Claim theorems: result flags and the encryption round trip -/

def txC1 : Transaction :=
  ⟨"t1", "a-missing", none, 5, .expense, 1700000000000, some "lunch", none, 0, none, 0, 0⟩

def bdC1 : BackupData :=
  ⟨1, "2024-01-01T00:00:00.000Z",
   some ⟨some [], some [], some [txC1], some [], some [], some [], some [], some []⟩,
   some ⟨0, 1, 0, 0⟩⟩

/-- Claim C1, counterexample: a merge import whose only transaction references
a missing account passes structural validation, records one referential error,
yet returns `success = true` — refuting "success = false whenever the errors
list is non-empty". -/
theorem spec_C1_counterexample :
    validateBackupStructure bdC1 = []
      ∧ (importWithOptions emptyDB (.plain bdC1) ⟨.merge, none⟩).2.errors ≠ []
      ∧ (importWithOptions emptyDB (.plain bdC1) ⟨.merge, none⟩).2.success = true := by
  refine ⟨by decide, by decide, by decide⟩

/-- Claim C1 (amended): in merge mode every record-level failure is caught
inside the transaction body, so the returned `ImportResult` always has
`success = true` — even when the errors list is non-empty; `success = false`
is reserved for an uncaught store-level exception, which record-level faults
never produce. -/
theorem spec_C1_merge_success_always_true (db : DB) (b : BackupData) :
    (importMerge db b).2.success = true := rfl

/-- Claim C9: for every summary value (hence for the three summary objects the
engine constructs, which all share the 16-key insertion order of
`summaryValues`), the route's index-parity heuristic agrees exactly with "the
sum of the eight `*Added` fields is positive". -/
theorem spec_C9_heuristic_equiv_sum (s : Summary) :
    anyAddedHeuristic s = true ↔ 0 < sumAdded s := by
  cases s
  simp [anyAddedHeuristic, summaryValues, sumAdded, List.enum, List.enumFrom]
  omega

/-- Claim C6: decrypting with the same password restores the snapshot exactly;
decryption with any other password, or of an envelope whose ciphertext was
replaced by anything else, fails with a tag-verification error and never
yields a parsed snapshot. -/
theorem spec_C6_encryption_round_trip (b : BackupData) (password salt iv : String) :
    decryptBackup (encryptBackup b password salt iv) password = .ok b
      ∧ (∀ wrong, wrong ≠ password →
          decryptBackup (encryptBackup b password salt iv) wrong
            = .error "Unsupported state or unable to authenticate data")
      ∧ (∀ blob : CipherBlob, blob ≠ (encryptBackup b password salt iv).data →
          decryptBackup { encryptBackup b password salt iv with data := blob } password
            = .error "Unsupported state or unable to authenticate data") := by
  refine ⟨by simp [decryptBackup, encryptBackup], ?_, ?_⟩
  · intro wrong hw
    unfold decryptBackup encryptBackup
    rw [if_neg]
    intro hcon
    have : pbkdf2Key password salt = pbkdf2Key wrong salt := hcon.1
    exact hw (congrArg Prod.fst this).symm
  · intro blob hb
    unfold decryptBackup encryptBackup
    rw [if_neg]
    intro hcon
    obtain ⟨hkey, hiv, htag⟩ := hcon
    apply hb
    have h1 : blob.key = pbkdf2Key password salt := hkey
    have h2 : blob.iv = iv := hiv
    have h3 : blob.plain = b := by
      have := congrArg AuthTag.plain htag
      simpa [gcmAuthTag] using this.symm
    cases blob
    simp_all [encryptBackup, gcmAuthTag, pbkdf2Key]

/-- Claim C6, witness instantiating the round trip at a concrete snapshot,
password, wrong password and tampered blob. -/
theorem spec_C6_witness :
    decryptBackup (encryptBackup bdC1 "hunter2" "salt0" "iv0") "hunter2" = .ok bdC1
      ∧ decryptBackup (encryptBackup bdC1 "hunter2" "salt0" "iv0") "wrong"
          = .error "Unsupported state or unable to authenticate data"
      ∧ decryptBackup
          { encryptBackup bdC1 "hunter2" "salt0" "iv0" with
            data := ⟨("other", "salt0"), "iv0", bdC1⟩ }
          "hunter2"
          = .error "Unsupported state or unable to authenticate data" := by
  obtain ⟨h1, h2, h3⟩ := spec_C6_encryption_round_trip bdC1 "hunter2" "salt0" "iv0"
  exact ⟨h1, h2 "wrong" (by decide), h3 ⟨("other", "salt0"), "iv0", bdC1⟩ (by decide)⟩

/-! ## Claim C7: one-pass structural validation and abort-before-write -/

/-- Claim C7: when any structural problem exists (unsupported version or a
missing/non-array collection), validation still reports *all* of them — one
error per offending collection, plus the version error — and whenever the
validation error list is non-empty the import returns `success = false`, the
untouched store, an empty summary and exactly that error list. -/
theorem spec_C7_validation_complete_and_aborts (b : BackupData) (db : DB)
    (opts : ImportOptions) :
    ((b.version ≠ 1 ∨ ∃ k ∈ requiredKeys, collPresent b.data k = false) →
      (∀ k ∈ requiredKeys, collPresent b.data k = false →
        (⟨"backup", k, none, "Missing or invalid array: " ++ k⟩ : ImportError)
          ∈ validateBackupStructure b)
      ∧ (b.version ≠ 1 →
        (⟨"backup", "version", none,
          "Unsupported backup version: " ++ toString b.version⟩ : ImportError)
          ∈ validateBackupStructure b)
      ∧ (validateBackupStructure b).length
          = (if b.version ≠ 1 then 1 else 0)
            + (requiredKeys.filter fun k => !collPresent b.data k).length)
    ∧ (validateBackupStructure b ≠ [] →
      importWithOptions db (.plain b) opts
        = (db, ⟨false, opts.mode, createEmptySummary, validateBackupStructure b⟩)) := by
  constructor
  · intro hproblem
    have hne : (versionErrors b ++ structureErrors b) ≠ [] := by
      rcases hproblem with hv | ⟨k, hk, hmiss⟩
      · intro hc
        have := versionErrors_nil b (List.append_eq_nil.mp hc).1
        exact hv this
      · intro hc
        have := structureErrors_nil b (List.append_eq_nil.mp hc).2 k hk
        rw [hmiss] at this; cases this
    have hval : validateBackupStructure b = versionErrors b ++ structureErrors b := by
      unfold validateBackupStructure
      rw [if_neg (by simpa using hne)]
    refine ⟨?_, ?_, ?_⟩
    · intro k hk hmiss
      rw [hval]
      refine List.mem_append_right _ ?_
      unfold structureErrors
      exact List.mem_map_of_mem _ (List.mem_filter.mpr ⟨hk, by simp [hmiss]⟩)
    · intro hv
      rw [hval]
      refine List.mem_append_left _ ?_
      unfold versionErrors
      rw [if_pos hv]
      simp
    · rw [hval, List.length_append]
      congr 1
      · unfold versionErrors
        by_cases hv : b.version ≠ 1
        · rw [if_pos hv, if_pos hv]; rfl
        · rw [if_neg hv, if_neg hv]; rfl
      · unfold structureErrors
        rw [List.length_map]
  · intro hne
    simp [importWithOptions, importValidated, hne]

def bdC7 : BackupData :=
  ⟨2, "2024-01-01T00:00:00.000Z",
   some ⟨none, some [], some [], none, some [], some [], some [], some []⟩,
   none⟩

/-- Claim C7, witness: a payload with version 2 and two non-array collections
yields exactly three validation errors (all reported in one pass) and an
aborted import that returns the untouched store. -/
theorem spec_C7_witness :
    ((⟨"backup", "accounts", none, "Missing or invalid array: accounts"⟩ : ImportError)
        ∈ validateBackupStructure bdC7)
      ∧ ((⟨"backup", "version", none, "Unsupported backup version: 2"⟩ : ImportError)
          ∈ validateBackupStructure bdC7)
      ∧ (validateBackupStructure bdC7).length = 3
      ∧ importWithOptions emptyDB (.plain bdC7) ⟨.merge, none⟩
          = (emptyDB, ⟨false, .merge, createEmptySummary, validateBackupStructure bdC7⟩) := by
  obtain ⟨hA, hB⟩ :=
    spec_C7_validation_complete_and_aborts bdC7 emptyDB ⟨.merge, none⟩
  obtain ⟨h1, h2, h3⟩ := hA (by decide)
  refine ⟨h1 "accounts" (by decide) (by decide), ?_, by rw [h3]; decide, hB (by decide)⟩
  have := h2 (by decide)
  simpa using this

/-! ## Claims C2 and C10: replace-mode failure -/

/-- Claim C2: a replace-mode import whose atomic restore fails at any delete
or insert leaves every one of the eight tables exactly as before the import
(full rollback, no partial data), and the caller receives a single
`success = false` result carrying the triggering error message. -/
theorem spec_C2_replace_rollback (db : DB) (b : BackupData) (pw : Option String) (e : String)
    (hv : validateBackupStructure b = [])
    (hr : restoreAll (getCollections b) = .error e) :
    (importWithOptions db (.plain b) ⟨.replace, pw⟩).1 = db
      ∧ (importWithOptions db (.plain b) ⟨.replace, pw⟩).2.success = false
      ∧ (importWithOptions db (.plain b) ⟨.replace, pw⟩).2.errors
          = [⟨"backup", "global", none, e⟩] := by
  obtain ⟨hv1, hv2⟩ := validate_structural_nil b hv
  have hR := importReplace_error db b e (versionErrors_nil b hv1)
    (checkArraysReplace_none b (structureErrors_nil b hv2)) hr
  have h := importValidated_replace_error db b pw e hv hR
  constructor
  · simp [importWithOptions, h]
  constructor
  · simp [importWithOptions, h]
  · simp [importWithOptions, h]

def accC2 : Account := ⟨"keep-me", "Checking", .checking, 100, "USD", 1, 0, 0⟩

def dbC2 : DB := ⟨[accC2], [], [], [], [], [], [], []⟩

def txC2 : Transaction :=
  ⟨"t9", "ghost-account", none, 3, .income, 1700000000000, none, none, 0, none, 0, 0⟩

def bdC2 : BackupData :=
  ⟨1, "2024-02-02T00:00:00.000Z",
   some ⟨some [], some [], some [txC2], some [], some [], some [], some [], some []⟩,
   some ⟨0, 1, 0, 0⟩⟩

/-- Claim C2, witness: restoring a snapshot whose transaction references a
missing account fails the atomic restore; the pre-import store (one account)
is fully preserved and the result carries the single triggering message. -/
theorem spec_C2_witness :
    validateBackupStructure bdC2 = []
      ∧ restoreAll (getCollections bdC2) = .error "FOREIGN KEY constraint failed"
      ∧ (importWithOptions dbC2 (.plain bdC2) ⟨.replace, none⟩).1 = dbC2
      ∧ (importWithOptions dbC2 (.plain bdC2) ⟨.replace, none⟩).2.success = false
      ∧ (importWithOptions dbC2 (.plain bdC2) ⟨.replace, none⟩).2.errors
          = [⟨"backup", "global", none, "FOREIGN KEY constraint failed"⟩] := by
  obtain ⟨h1, h2, h3⟩ :=
    spec_C2_replace_rollback dbC2 bdC2 none "FOREIGN KEY constraint failed"
      (by decide) (by rfl)
  exact ⟨by decide, by rfl, h1, h2, h3⟩

/-- Claim C10 (implicit): when the replace-mode restore fails, the returned
summary still reports every `*Added` count as the incoming collection's
length — not zero — although nothing was written (the store is returned
unchanged); only `success = false` and the error list reveal the failure. -/
theorem spec_C10_failed_replace_summary_counts (db : DB) (b : BackupData)
    (pw : Option String) (e : String)
    (hv : validateBackupStructure b = [])
    (hr : restoreAll (getCollections b) = .error e) :
    (importWithOptions db (.plain b) ⟨.replace, pw⟩).1 = db
      ∧ (importWithOptions db (.plain b) ⟨.replace, pw⟩).2.success = false
      ∧ (importWithOptions db (.plain b) ⟨.replace, pw⟩).2.summary
          = { accountsAdded := (getCollections b).accounts.length, accountsSkipped := 0,
              categoriesAdded := (getCollections b).categories.length, categoriesSkipped := 0,
              transactionsAdded := (getCollections b).transactions.length,
              transactionsSkipped := 0,
              billsAdded := (getCollections b).bills.length, billsSkipped := 0,
              goalsAdded := (getCollections b).goals.length, goalsSkipped := 0,
              budgetsAdded := (getCollections b).budgets.length, budgetsSkipped := 0,
              patternsAdded := (getCollections b).recurringPatterns.length,
              patternsSkipped := 0,
              contributionsAdded := (getCollections b).goalContributions.length,
              contributionsSkipped := 0 } := by
  obtain ⟨hv1, hv2⟩ := validate_structural_nil b hv
  have hR := importReplace_error db b e (versionErrors_nil b hv1)
    (checkArraysReplace_none b (structureErrors_nil b hv2)) hr
  have h := importValidated_replace_error db b pw e hv hR
  refine ⟨by simp [importWithOptions, h], by simp [importWithOptions, h],
    by simp [importWithOptions, h]⟩

def txC10a : Transaction :=
  ⟨"ta", "ghost", none, 1, .expense, 1700000000000, none, none, 0, none, 0, 0⟩

def txC10b : Transaction :=
  ⟨"tb", "ghost", none, 2, .expense, 1700000000001, none, none, 0, none, 0, 0⟩

def accC10 : Account := ⟨"a-old", "Old", .savings, 7, "USD", 1, 0, 0⟩

def dbC10 : DB := ⟨[accC10], [], [], [], [], [], [], []⟩

def bdC10 : BackupData :=
  ⟨1, "2024-03-03T00:00:00.000Z",
   some ⟨some [], some [], some [txC10a, txC10b], some [], some [], some [], some [], some []⟩,
   some ⟨0, 2, 0, 0⟩⟩

/-- Claim C10, witness: a failed replace of two incoming transactions reports
`transactionsAdded = 2` even though the store is returned unchanged (still
holding only the pre-import account and no transactions). -/
theorem spec_C10_witness :
    (importWithOptions dbC10 (.plain bdC10) ⟨.replace, none⟩).1 = dbC10
      ∧ (importWithOptions dbC10 (.plain bdC10) ⟨.replace, none⟩).2.success = false
      ∧ (importWithOptions dbC10 (.plain bdC10) ⟨.replace, none⟩).2.summary.transactionsAdded
          = 2 := by
  obtain ⟨h1, h2, h3⟩ :=
    spec_C10_failed_replace_summary_counts dbC10 bdC10 none "FOREIGN KEY constraint failed"
      (by decide) (by rfl)
  exact ⟨h1, h2, by rw [h3]; rfl⟩

/-! ## Claim C8: CSV formatting -/

theorem digitChar_isDigit (d : Nat) (h : d ≤ 9) : (Nat.digitChar d).isDigit = true := by
  interval_cases d <;> decide

/-- Claim C8: `exportCSV` always starts with the seven-column header row and
emits one row per transaction; any non-empty field value containing a comma,
double quote or newline is wrapped in double quotes with internal quotes
doubled (`Rent, July` is quoted); amounts are rendered with exactly two
decimal digits after the final dot (`1234.5` renders as `1234.50`); a
dangling `account_id` resolves to `Unknown` and a dangling `category_id` to
the empty string; an unrecognized `dateFormat` falls back to `MM/DD/YYYY`. -/
theorem spec_C8_csv_format :
    (∀ (db : DB) (opts : CSVOptions), ∃ rows : List String,
      exportCSV db opts
          = String.intercalate "\n"
              ("Date,Description,Amount,Type,Account,Category,Notes" :: rows)
        ∧ (truthyInt opts.startDate = false → rows.length = db.transactions.length))
    ∧ (∀ s : String, s ≠ ""
        → (s.data.contains ',' || s.data.contains '"' || s.data.contains '\n') = true →
        escapeCSV (some s)
          = "\"" ++ String.mk (s.data.flatMap fun ch => if ch = '"' then ['"', '"'] else [ch])
              ++ "\"")
    ∧ escapeCSV (some "Rent, July") = "\"Rent, July\""
    ∧ (∀ q : ℚ, ∃ (pre : String) (a b : Char),
        toFixed2 q = pre ++ "." ++ String.mk [a, b]
          ∧ a.isDigit = true ∧ b.isDigit = true)
    ∧ toFixed2 (1234.5 : ℚ) = "1234.50"
    ∧ (∀ am cm fmt (t : Transaction), mapGet am t.account_id = none →
        (csvFields am cm fmt t)[4]? = some "Unknown")
    ∧ (∀ am cm fmt (t : Transaction) cid, t.category_id = some cid → mapGet cm cid = none →
        (csvFields am cm fmt t)[5]? = some "")
    ∧ (∀ (ts : Int) (fmt : String), fmt ≠ "DD/MM/YYYY" → fmt ≠ "YYYY-MM-DD" →
        formatDate ts fmt = formatDate ts "MM/DD/YYYY") := by
  have hfloor : ⌊|(1234.5 : ℚ)| * 100 + 1 / 2⌋ = (123450 : ℤ) := by
    rw [show |(1234.5 : ℚ)| = 1234.5 from abs_of_nonneg (by norm_num)]
    norm_num
  have htf : toFixed2 (1234.5 : ℚ) = "1234.50" := by
    unfold toFixed2
    rw [if_neg (by norm_num), hfloor]
    decide
  refine ⟨?_, ?_, by decide, ?_, htf, ?_, ?_, ?_⟩
  · intro db opts
    refine ⟨_, rfl, ?_⟩
    intro h
    simp [h, List.length_mergeSort]
  · intro s hs hc
    simp only [escapeCSV]
    rw [if_neg hs, if_pos hc]
  · intro q
    refine ⟨(if q < 0 then "-" else "") ++ toString (⌊|q| * 100 + 1 / 2⌋ / 100),
      Nat.digitChar ((⌊|q| * 100 + 1 / 2⌋ % 100).toNat / 10),
      Nat.digitChar ((⌊|q| * 100 + 1 / 2⌋ % 100).toNat % 10), ?_, ?_, ?_⟩
    · unfold toFixed2
      rw [String.append_assoc]
    · have h1 : 0 ≤ ⌊|q| * 100 + 1 / 2⌋ % 100 := Int.emod_nonneg _ (by norm_num)
      have h2 : ⌊|q| * 100 + 1 / 2⌋ % 100 < 100 := Int.emod_lt_of_pos _ (by norm_num)
      exact digitChar_isDigit _ (by omega)
    · have h1 : 0 ≤ ⌊|q| * 100 + 1 / 2⌋ % 100 := Int.emod_nonneg _ (by norm_num)
      have h2 : ⌊|q| * 100 + 1 / 2⌋ % 100 < 100 := Int.emod_lt_of_pos _ (by norm_num)
      exact digitChar_isDigit _ (by omega)
  · intro am cm fmt t h
    simp [csvFields, h, jsOr]
    decide
  · intro am cm fmt t cid hcid h
    simp [csvFields, hcid, h, jsOr, escapeCSV]
  · intro ts fmt h1 h2
    have e1 : (fmt == "DD/MM/YYYY") = false := by simpa using h1
    have e2 : (fmt == "YYYY-MM-DD") = false := by simpa using h2
    simp [formatDate, e1, e2]

def txC8 : Transaction :=
  ⟨"t-c8", "no-such-account", some "no-such-category", 1234.5, .expense,
   1689552000000, some "Rent, July", some "say \"hi\"", 0, none, 0, 0⟩

/-- Claim C8, witness: concrete instantiation — the header of an export of one
transaction, the quoting of `Rent, July`, the two-decimal digits of an
arbitrary amount, `Unknown`/empty fallbacks for the dangling references of
`txC8`, and the `MM/DD/YYYY` fallback for the format string `bogus`. -/
theorem spec_C8_witness :
    (∃ rows : List String,
      exportCSV ⟨[], [], [txC8], [], [], [], [], []⟩ ⟨none, none, none⟩
          = String.intercalate "\n"
              ("Date,Description,Amount,Type,Account,Category,Notes" :: rows)
        ∧ rows.length = 1)
      ∧ escapeCSV (some "Rent, July") = "\"Rent, July\""
      ∧ (∃ (pre : String) (a b : Char),
          toFixed2 (1234.5 : ℚ) = pre ++ "." ++ String.mk [a, b]
            ∧ a.isDigit = true ∧ b.isDigit = true)
      ∧ toFixed2 (1234.5 : ℚ) = "1234.50"
      ∧ (csvFields [] [] "MM/DD/YYYY" txC8)[4]? = some "Unknown"
      ∧ (csvFields [] [] "MM/DD/YYYY" txC8)[5]? = some ""
      ∧ formatDate 1689552000000 "bogus" = formatDate 1689552000000 "MM/DD/YYYY" := by
  obtain ⟨h1, _, h3, h4, h5, h6, h7, h8⟩ := spec_C8_csv_format
  obtain ⟨rows, hr1, hr2⟩ := h1 ⟨[], [], [txC8], [], [], [], [], []⟩ ⟨none, none, none⟩
  exact ⟨⟨rows, hr1, hr2 (by decide)⟩, h3, h4 (1234.5 : ℚ), h5,
    h6 [] [] "MM/DD/YYYY" txC8 (by decide),
    h7 [] [] "MM/DD/YYYY" txC8 "no-such-category" (by decide) (by decide),
    h8 1689552000000 "bogus" (by decide) (by decide)⟩

/-! ## Phase-level preservation, skip and no-error lemmas -/

theorem catPhase_preserves (l : List Category) (st : MergeSt) :
    (l.foldl mergeCategoryStep st).db.accounts = st.db.accounts
      ∧ (l.foldl mergeCategoryStep st).db.transactions = st.db.transactions
      ∧ (l.foldl mergeCategoryStep st).db.bills = st.db.bills
      ∧ (l.foldl mergeCategoryStep st).db.goals = st.db.goals
      ∧ (l.foldl mergeCategoryStep st).db.goalContributions = st.db.goalContributions
      ∧ (l.foldl mergeCategoryStep st).db.budgets = st.db.budgets
      ∧ (l.foldl mergeCategoryStep st).db.recurringPatterns = st.db.recurringPatterns := by
  rw [catPhase_frame]
  exact ⟨rfl, rfl, rfl, rfl, rfl, rfl, rfl⟩

theorem mergeCategoryStep_no_error_mem (st : MergeSt) (r : Category)
    (h : (mergeCategoryStep st r).errors = st.errors) :
    (categoryIds (mergeCategoryStep st r).db.categories).contains r.id = true := by
  rcases mergeCategoryStep_cases st r with hc | ⟨e, he⟩
  · exact hc
  · rw [he] at h
    simp at h

theorem catPhase_skip_all : ∀ (l : List Category) (st : MergeSt),
    (∀ r ∈ l, (categoryIds st.db.categories).contains r.id = true) →
    l.foldl mergeCategoryStep st
      = { st with summary :=
            { st.summary with categoriesSkipped := st.summary.categoriesSkipped + l.length } } := by
  intro l
  induction l with
  | nil => intro st _; simp
  | cons r l ih =>
    intro st h
    rw [List.foldl_cons, mergeCategoryStep_skip st r (h r (by simp))]
    rw [ih ({ st with summary :=
          { st.summary with categoriesSkipped := st.summary.categoriesSkipped + 1 } } : MergeSt)
        (fun x hx => h x (by simp [hx]))]
    rcases st with ⟨stdb, ssum, serr⟩
    rcases ssum with ⟨a1, a2, a3, a4, a5, a6, a7, a8, a9, a10, a11, a12, a13, a14, a15, a16⟩
    simp
    try omega

theorem accPhase_preserves (l : List Account) (st : MergeSt) :
    (l.foldl mergeAccountStep st).db.categories = st.db.categories
      ∧ (l.foldl mergeAccountStep st).db.transactions = st.db.transactions
      ∧ (l.foldl mergeAccountStep st).db.bills = st.db.bills
      ∧ (l.foldl mergeAccountStep st).db.goals = st.db.goals
      ∧ (l.foldl mergeAccountStep st).db.goalContributions = st.db.goalContributions
      ∧ (l.foldl mergeAccountStep st).db.budgets = st.db.budgets
      ∧ (l.foldl mergeAccountStep st).db.recurringPatterns = st.db.recurringPatterns := by
  rw [accPhase_frame]
  exact ⟨rfl, rfl, rfl, rfl, rfl, rfl, rfl⟩

theorem mergeAccountStep_no_error_mem (st : MergeSt) (r : Account)
    (h : (mergeAccountStep st r).errors = st.errors) :
    (accountIds (mergeAccountStep st r).db.accounts).contains r.id = true := by
  rcases mergeAccountStep_cases st r with hc | ⟨e, he⟩
  · exact hc
  · rw [he] at h
    simp at h

theorem accPhase_skip_all : ∀ (l : List Account) (st : MergeSt),
    (∀ r ∈ l, (accountIds st.db.accounts).contains r.id = true) →
    l.foldl mergeAccountStep st
      = { st with summary :=
            { st.summary with accountsSkipped := st.summary.accountsSkipped + l.length } } := by
  intro l
  induction l with
  | nil => intro st _; simp
  | cons r l ih =>
    intro st h
    rw [List.foldl_cons, mergeAccountStep_skip st r (h r (by simp))]
    rw [ih ({ st with summary :=
          { st.summary with accountsSkipped := st.summary.accountsSkipped + 1 } } : MergeSt)
        (fun x hx => h x (by simp [hx]))]
    rcases st with ⟨stdb, ssum, serr⟩
    rcases ssum with ⟨a1, a2, a3, a4, a5, a6, a7, a8, a9, a10, a11, a12, a13, a14, a15, a16⟩
    simp
    try omega

theorem patPhase_preserves (l : List RecurringPattern) (st : MergeSt) :
    (l.foldl mergePatternStep st).db.accounts = st.db.accounts
      ∧ (l.foldl mergePatternStep st).db.categories = st.db.categories
      ∧ (l.foldl mergePatternStep st).db.transactions = st.db.transactions
      ∧ (l.foldl mergePatternStep st).db.bills = st.db.bills
      ∧ (l.foldl mergePatternStep st).db.goals = st.db.goals
      ∧ (l.foldl mergePatternStep st).db.goalContributions = st.db.goalContributions
      ∧ (l.foldl mergePatternStep st).db.budgets = st.db.budgets := by
  rw [patPhase_frame]
  exact ⟨rfl, rfl, rfl, rfl, rfl, rfl, rfl⟩

theorem mergePatternStep_no_error_mem (st : MergeSt) (r : RecurringPattern)
    (h : (mergePatternStep st r).errors = st.errors) :
    (patternIds (mergePatternStep st r).db.recurringPatterns).contains r.id = true := by
  rcases mergePatternStep_cases st r with hc | ⟨e, he⟩
  · exact hc
  · rw [he] at h
    simp at h

theorem patPhase_skip_all : ∀ (l : List RecurringPattern) (st : MergeSt),
    (∀ r ∈ l, (patternIds st.db.recurringPatterns).contains r.id = true) →
    l.foldl mergePatternStep st
      = { st with summary :=
            { st.summary with patternsSkipped := st.summary.patternsSkipped + l.length } } := by
  intro l
  induction l with
  | nil => intro st _; simp
  | cons r l ih =>
    intro st h
    rw [List.foldl_cons, mergePatternStep_skip st r (h r (by simp))]
    rw [ih ({ st with summary :=
          { st.summary with patternsSkipped := st.summary.patternsSkipped + 1 } } : MergeSt)
        (fun x hx => h x (by simp [hx]))]
    rcases st with ⟨stdb, ssum, serr⟩
    rcases ssum with ⟨a1, a2, a3, a4, a5, a6, a7, a8, a9, a10, a11, a12, a13, a14, a15, a16⟩
    simp
    try omega

theorem txPhase_preserves (l : List Transaction) (st : MergeSt) :
    (l.foldl mergeTransactionStep st).db.accounts = st.db.accounts
      ∧ (l.foldl mergeTransactionStep st).db.categories = st.db.categories
      ∧ (l.foldl mergeTransactionStep st).db.bills = st.db.bills
      ∧ (l.foldl mergeTransactionStep st).db.goals = st.db.goals
      ∧ (l.foldl mergeTransactionStep st).db.goalContributions = st.db.goalContributions
      ∧ (l.foldl mergeTransactionStep st).db.budgets = st.db.budgets
      ∧ (l.foldl mergeTransactionStep st).db.recurringPatterns = st.db.recurringPatterns := by
  rw [txPhase_frame]
  exact ⟨rfl, rfl, rfl, rfl, rfl, rfl, rfl⟩

theorem mergeTransactionStep_no_error_mem (st : MergeSt) (r : Transaction)
    (h : (mergeTransactionStep st r).errors = st.errors) :
    (transactionIds (mergeTransactionStep st r).db.transactions).contains r.id = true := by
  rcases mergeTransactionStep_cases st r with hc | ⟨e, he⟩
  · exact hc
  · rw [he] at h
    simp at h

theorem txPhase_skip_all : ∀ (l : List Transaction) (st : MergeSt),
    (∀ r ∈ l, (transactionIds st.db.transactions).contains r.id = true) →
    l.foldl mergeTransactionStep st
      = { st with summary :=
            { st.summary with transactionsSkipped := st.summary.transactionsSkipped + l.length } } := by
  intro l
  induction l with
  | nil => intro st _; simp
  | cons r l ih =>
    intro st h
    rw [List.foldl_cons, mergeTransactionStep_skip st r (h r (by simp))]
    rw [ih ({ st with summary :=
          { st.summary with transactionsSkipped := st.summary.transactionsSkipped + 1 } } : MergeSt)
        (fun x hx => h x (by simp [hx]))]
    rcases st with ⟨stdb, ssum, serr⟩
    rcases ssum with ⟨a1, a2, a3, a4, a5, a6, a7, a8, a9, a10, a11, a12, a13, a14, a15, a16⟩
    simp
    try omega

theorem billPhase_preserves (l : List Bill) (st : MergeSt) :
    (l.foldl mergeBillStep st).db.accounts = st.db.accounts
      ∧ (l.foldl mergeBillStep st).db.categories = st.db.categories
      ∧ (l.foldl mergeBillStep st).db.transactions = st.db.transactions
      ∧ (l.foldl mergeBillStep st).db.goals = st.db.goals
      ∧ (l.foldl mergeBillStep st).db.goalContributions = st.db.goalContributions
      ∧ (l.foldl mergeBillStep st).db.budgets = st.db.budgets
      ∧ (l.foldl mergeBillStep st).db.recurringPatterns = st.db.recurringPatterns := by
  rw [billPhase_frame]
  exact ⟨rfl, rfl, rfl, rfl, rfl, rfl, rfl⟩

theorem mergeBillStep_no_error_mem (st : MergeSt) (r : Bill)
    (h : (mergeBillStep st r).errors = st.errors) :
    (billIds (mergeBillStep st r).db.bills).contains r.id = true := by
  rcases mergeBillStep_cases st r with hc | ⟨e, he⟩
  · exact hc
  · rw [he] at h
    simp at h

theorem billPhase_skip_all : ∀ (l : List Bill) (st : MergeSt),
    (∀ r ∈ l, (billIds st.db.bills).contains r.id = true) →
    l.foldl mergeBillStep st
      = { st with summary :=
            { st.summary with billsSkipped := st.summary.billsSkipped + l.length } } := by
  intro l
  induction l with
  | nil => intro st _; simp
  | cons r l ih =>
    intro st h
    rw [List.foldl_cons, mergeBillStep_skip st r (h r (by simp))]
    rw [ih ({ st with summary :=
          { st.summary with billsSkipped := st.summary.billsSkipped + 1 } } : MergeSt)
        (fun x hx => h x (by simp [hx]))]
    rcases st with ⟨stdb, ssum, serr⟩
    rcases ssum with ⟨a1, a2, a3, a4, a5, a6, a7, a8, a9, a10, a11, a12, a13, a14, a15, a16⟩
    simp
    try omega

theorem budPhase_preserves (l : List Budget) (st : MergeSt) :
    (l.foldl mergeBudgetStep st).db.accounts = st.db.accounts
      ∧ (l.foldl mergeBudgetStep st).db.categories = st.db.categories
      ∧ (l.foldl mergeBudgetStep st).db.transactions = st.db.transactions
      ∧ (l.foldl mergeBudgetStep st).db.bills = st.db.bills
      ∧ (l.foldl mergeBudgetStep st).db.goals = st.db.goals
      ∧ (l.foldl mergeBudgetStep st).db.goalContributions = st.db.goalContributions
      ∧ (l.foldl mergeBudgetStep st).db.recurringPatterns = st.db.recurringPatterns := by
  rw [budPhase_frame]
  exact ⟨rfl, rfl, rfl, rfl, rfl, rfl, rfl⟩

theorem mergeBudgetStep_no_error_mem (st : MergeSt) (r : Budget)
    (h : (mergeBudgetStep st r).errors = st.errors) :
    (budgetIds (mergeBudgetStep st r).db.budgets).contains r.id = true := by
  rcases mergeBudgetStep_cases st r with hc | ⟨e, he⟩
  · exact hc
  · rw [he] at h
    simp at h

theorem budPhase_skip_all : ∀ (l : List Budget) (st : MergeSt),
    (∀ r ∈ l, (budgetIds st.db.budgets).contains r.id = true) →
    l.foldl mergeBudgetStep st
      = { st with summary :=
            { st.summary with budgetsSkipped := st.summary.budgetsSkipped + l.length } } := by
  intro l
  induction l with
  | nil => intro st _; simp
  | cons r l ih =>
    intro st h
    rw [List.foldl_cons, mergeBudgetStep_skip st r (h r (by simp))]
    rw [ih ({ st with summary :=
          { st.summary with budgetsSkipped := st.summary.budgetsSkipped + 1 } } : MergeSt)
        (fun x hx => h x (by simp [hx]))]
    rcases st with ⟨stdb, ssum, serr⟩
    rcases ssum with ⟨a1, a2, a3, a4, a5, a6, a7, a8, a9, a10, a11, a12, a13, a14, a15, a16⟩
    simp
    try omega

theorem goalPhase_preserves (l : List Goal) (st : MergeSt) :
    (l.foldl mergeGoalStep st).db.accounts = st.db.accounts
      ∧ (l.foldl mergeGoalStep st).db.categories = st.db.categories
      ∧ (l.foldl mergeGoalStep st).db.transactions = st.db.transactions
      ∧ (l.foldl mergeGoalStep st).db.bills = st.db.bills
      ∧ (l.foldl mergeGoalStep st).db.goalContributions = st.db.goalContributions
      ∧ (l.foldl mergeGoalStep st).db.budgets = st.db.budgets
      ∧ (l.foldl mergeGoalStep st).db.recurringPatterns = st.db.recurringPatterns := by
  rw [goalPhase_frame]
  exact ⟨rfl, rfl, rfl, rfl, rfl, rfl, rfl⟩

theorem mergeGoalStep_no_error_mem (st : MergeSt) (r : Goal)
    (h : (mergeGoalStep st r).errors = st.errors) :
    (goalIds (mergeGoalStep st r).db.goals).contains r.id = true := by
  rcases mergeGoalStep_cases st r with hc | ⟨e, he⟩
  · exact hc
  · rw [he] at h
    simp at h

theorem goalPhase_skip_all : ∀ (l : List Goal) (st : MergeSt),
    (∀ r ∈ l, (goalIds st.db.goals).contains r.id = true) →
    l.foldl mergeGoalStep st
      = { st with summary :=
            { st.summary with goalsSkipped := st.summary.goalsSkipped + l.length } } := by
  intro l
  induction l with
  | nil => intro st _; simp
  | cons r l ih =>
    intro st h
    rw [List.foldl_cons, mergeGoalStep_skip st r (h r (by simp))]
    rw [ih ({ st with summary :=
          { st.summary with goalsSkipped := st.summary.goalsSkipped + 1 } } : MergeSt)
        (fun x hx => h x (by simp [hx]))]
    rcases st with ⟨stdb, ssum, serr⟩
    rcases ssum with ⟨a1, a2, a3, a4, a5, a6, a7, a8, a9, a10, a11, a12, a13, a14, a15, a16⟩
    simp
    try omega

theorem contribPhase_preserves (l : List GoalContribution) (st : MergeSt) :
    (l.foldl mergeContributionStep st).db.accounts = st.db.accounts
      ∧ (l.foldl mergeContributionStep st).db.categories = st.db.categories
      ∧ (l.foldl mergeContributionStep st).db.transactions = st.db.transactions
      ∧ (l.foldl mergeContributionStep st).db.bills = st.db.bills
      ∧ (l.foldl mergeContributionStep st).db.goals = st.db.goals
      ∧ (l.foldl mergeContributionStep st).db.budgets = st.db.budgets
      ∧ (l.foldl mergeContributionStep st).db.recurringPatterns = st.db.recurringPatterns := by
  rw [contribPhase_frame]
  exact ⟨rfl, rfl, rfl, rfl, rfl, rfl, rfl⟩

theorem mergeContributionStep_no_error_mem (st : MergeSt) (r : GoalContribution)
    (h : (mergeContributionStep st r).errors = st.errors) :
    (contributionIds (mergeContributionStep st r).db.goalContributions).contains r.id = true := by
  rcases mergeContributionStep_cases st r with hc | ⟨e, he⟩
  · exact hc
  · rw [he] at h
    simp at h

theorem contribPhase_skip_all : ∀ (l : List GoalContribution) (st : MergeSt),
    (∀ r ∈ l, (contributionIds st.db.goalContributions).contains r.id = true) →
    l.foldl mergeContributionStep st
      = { st with summary :=
            { st.summary with contributionsSkipped := st.summary.contributionsSkipped + l.length } } := by
  intro l
  induction l with
  | nil => intro st _; simp
  | cons r l ih =>
    intro st h
    rw [List.foldl_cons, mergeContributionStep_skip st r (h r (by simp))]
    rw [ih ({ st with summary :=
          { st.summary with contributionsSkipped := st.summary.contributionsSkipped + 1 } } : MergeSt)
        (fun x hx => h x (by simp [hx]))]
    rcases st with ⟨stdb, ssum, serr⟩
    rcases ssum with ⟨a1, a2, a3, a4, a5, a6, a7, a8, a9, a10, a11, a12, a13, a14, a15, a16⟩
    simp
    try omega

/-- Helper: the merge strategy as the nested eight-phase fold. -/
def mergeChain (db : DB) (c : Collections) : MergeSt :=
  c.goalContributions.foldl mergeContributionStep
    (c.goals.foldl mergeGoalStep
      (c.budgets.foldl mergeBudgetStep
        (c.bills.foldl mergeBillStep
          (c.transactions.foldl mergeTransactionStep
            (c.recurringPatterns.foldl mergePatternStep
              (c.accounts.foldl mergeAccountStep
                (c.categories.foldl mergeCategoryStep ⟨db, createEmptySummary, []⟩)))))))

theorem importMerge_eq_chain (db : DB) (b : BackupData) :
    importMerge db b
      = ((mergeChain db (getCollections b)).db,
         ⟨true, .merge, (mergeChain db (getCollections b)).summary,
          (mergeChain db (getCollections b)).errors⟩) := rfl

/-! ## Claim C3: merge idempotence -/

def txC3 : Transaction :=
  ⟨"t3", "missing-acc", none, 2, .expense, 1700000000000, none, none, 0, none, 0, 0⟩

def bdC3 : BackupData :=
  ⟨1, "2024-04-04T00:00:00.000Z",
   some ⟨some [], some [], some [txC3], some [], some [], some [], some [], some []⟩,
   some ⟨0, 1, 0, 0⟩⟩

/-- Claim C3, counterexample: a structurally valid snapshot whose transaction
references a missing account is rejected again on the second merge run — the
second run reports an error and skips nothing (`transactionsSkipped = 0`
although one transaction is incoming), refuting idempotence for every valid
snapshot. -/
theorem spec_C3_counterexample :
    validateBackupStructure bdC3 = []
      ∧ (importMerge (importMerge emptyDB bdC3).1 bdC3).2.errors ≠ []
      ∧ (importMerge (importMerge emptyDB bdC3).1 bdC3).2.summary.transactionsSkipped = 0
      ∧ (getCollections bdC3).transactions.length = 1 := by
  exact ⟨by decide, by decide, by decide, by decide⟩

/-- Claim C3 (amended): for every snapshot whose first merge run completes
with an empty errors list, importing it in merge mode a second time changes
nothing and yields `added = 0`, `skipped = <incoming count>` for every one of
the eight collections, and an empty errors list. -/
theorem spec_C3_merge_idempotent_when_clean (db : DB) (b : BackupData)
    (h : (importMerge db b).2.errors = []) :
    importMerge (importMerge db b).1 b
      = ((importMerge db b).1,
         ⟨true, .merge,
          { accountsAdded := 0, accountsSkipped := (getCollections b).accounts.length,
            categoriesAdded := 0, categoriesSkipped := (getCollections b).categories.length,
            transactionsAdded := 0,
            transactionsSkipped := (getCollections b).transactions.length,
            billsAdded := 0, billsSkipped := (getCollections b).bills.length,
            goalsAdded := 0, goalsSkipped := (getCollections b).goals.length,
            budgetsAdded := 0, budgetsSkipped := (getCollections b).budgets.length,
            patternsAdded := 0,
            patternsSkipped := (getCollections b).recurringPatterns.length,
            contributionsAdded := 0,
            contributionsSkipped := (getCollections b).goalContributions.length },
          []⟩) := by
  set c := getCollections b with hc
  set st0 : MergeSt := ⟨db, createEmptySummary, []⟩ with hst0
  set st1 := c.categories.foldl mergeCategoryStep st0 with hst1
  set st2 := c.accounts.foldl mergeAccountStep st1 with hst2
  set st3 := c.recurringPatterns.foldl mergePatternStep st2 with hst3
  set st4 := c.transactions.foldl mergeTransactionStep st3 with hst4
  set st5 := c.bills.foldl mergeBillStep st4 with hst5
  set st6 := c.budgets.foldl mergeBudgetStep st5 with hst6
  set st7 := c.goals.foldl mergeGoalStep st6 with hst7
  set st8 := c.goalContributions.foldl mergeContributionStep st7 with hst8
  have hchain : mergeChain db c = st8 := rfl
  have hm : importMerge db b = (st8.db, ⟨true, .merge, st8.summary, st8.errors⟩) := by
    rw [importMerge_eq_chain db b, ← hc, hchain]
  have herr : st8.errors = [] := by
    rw [hm] at h
    exact h
  -- peel the error accumulation of the eight phases
  obtain ⟨e1, he1⟩ :=
    foldl_errors_append mergeCategoryStep mergeCategoryStep_errors c.categories st0
  obtain ⟨e2, he2⟩ :=
    foldl_errors_append mergeAccountStep mergeAccountStep_errors c.accounts st1
  obtain ⟨e3, he3⟩ :=
    foldl_errors_append mergePatternStep mergePatternStep_errors c.recurringPatterns st2
  obtain ⟨e4, he4⟩ :=
    foldl_errors_append mergeTransactionStep mergeTransactionStep_errors c.transactions st3
  obtain ⟨e5, he5⟩ := foldl_errors_append mergeBillStep mergeBillStep_errors c.bills st4
  obtain ⟨e6, he6⟩ := foldl_errors_append mergeBudgetStep mergeBudgetStep_errors c.budgets st5
  obtain ⟨e7, he7⟩ := foldl_errors_append mergeGoalStep mergeGoalStep_errors c.goals st6
  obtain ⟨e8, he8⟩ :=
    foldl_errors_append mergeContributionStep mergeContributionStep_errors
      c.goalContributions st7
  have h8 := herr
  rw [he8] at h8
  obtain ⟨h7, _⟩ := List.append_eq_nil.mp h8
  have h7' := h7
  rw [he7] at h7'
  obtain ⟨h6, _⟩ := List.append_eq_nil.mp h7'
  have h6' := h6
  rw [he6] at h6'
  obtain ⟨h5, _⟩ := List.append_eq_nil.mp h6'
  have h5' := h5
  rw [he5] at h5'
  obtain ⟨h4, _⟩ := List.append_eq_nil.mp h5'
  have h4' := h4
  rw [he4] at h4'
  obtain ⟨h3, _⟩ := List.append_eq_nil.mp h4'
  have h3' := h3
  rw [he3] at h3'
  obtain ⟨h2, _⟩ := List.append_eq_nil.mp h3'
  have h2' := h2
  rw [he2] at h2'
  obtain ⟨h1, _⟩ := List.append_eq_nil.mp h2'
  -- no phase produced an error, so each phase leaves every incoming id present
  have H1 : ∀ r ∈ c.categories, (categoryIds st1.db.categories).contains r.id = true :=
    foldl_no_error_mem mergeCategoryStep (fun d => categoryIds d.categories) (fun r => r.id)
      mergeCategoryStep_errors mergeCategoryStep_ids_mono mergeCategoryStep_no_error_mem
      c.categories st0 (by rw [h1])
  have H2 : ∀ r ∈ c.accounts, (accountIds st2.db.accounts).contains r.id = true :=
    foldl_no_error_mem mergeAccountStep (fun d => accountIds d.accounts) (fun r => r.id)
      mergeAccountStep_errors mergeAccountStep_ids_mono mergeAccountStep_no_error_mem
      c.accounts st1 (by rw [h2, h1])
  have H3 : ∀ r ∈ c.recurringPatterns,
      (patternIds st3.db.recurringPatterns).contains r.id = true :=
    foldl_no_error_mem mergePatternStep (fun d => patternIds d.recurringPatterns)
      (fun r => r.id) mergePatternStep_errors mergePatternStep_ids_mono
      mergePatternStep_no_error_mem c.recurringPatterns st2 (by rw [h3, h2])
  have H4 : ∀ r ∈ c.transactions, (transactionIds st4.db.transactions).contains r.id = true :=
    foldl_no_error_mem mergeTransactionStep (fun d => transactionIds d.transactions)
      (fun r => r.id) mergeTransactionStep_errors mergeTransactionStep_ids_mono
      mergeTransactionStep_no_error_mem c.transactions st3 (by rw [h4, h3])
  have H5 : ∀ r ∈ c.bills, (billIds st5.db.bills).contains r.id = true :=
    foldl_no_error_mem mergeBillStep (fun d => billIds d.bills) (fun r => r.id)
      mergeBillStep_errors mergeBillStep_ids_mono mergeBillStep_no_error_mem
      c.bills st4 (by rw [h5, h4])
  have H6 : ∀ r ∈ c.budgets, (budgetIds st6.db.budgets).contains r.id = true :=
    foldl_no_error_mem mergeBudgetStep (fun d => budgetIds d.budgets) (fun r => r.id)
      mergeBudgetStep_errors mergeBudgetStep_ids_mono mergeBudgetStep_no_error_mem
      c.budgets st5 (by rw [h6, h5])
  have H7 : ∀ r ∈ c.goals, (goalIds st7.db.goals).contains r.id = true :=
    foldl_no_error_mem mergeGoalStep (fun d => goalIds d.goals) (fun r => r.id)
      mergeGoalStep_errors mergeGoalStep_ids_mono mergeGoalStep_no_error_mem
      c.goals st6 (by rw [h7, h6])
  have H8 : ∀ r ∈ c.goalContributions,
      (contributionIds st8.db.goalContributions).contains r.id = true :=
    foldl_no_error_mem mergeContributionStep (fun d => contributionIds d.goalContributions)
      (fun r => r.id) mergeContributionStep_errors mergeContributionStep_ids_mono
      mergeContributionStep_no_error_mem c.goalContributions st7 (by rw [herr, h7])
  -- transport the presence facts to the final store
  have pc : st8.db.categories = st1.db.categories :=
    ((contribPhase_preserves _ _).2.1).trans
      (((goalPhase_preserves _ _).2.1).trans
        (((budPhase_preserves _ _).2.1).trans
          (((billPhase_preserves _ _).2.1).trans
            (((txPhase_preserves _ _).2.1).trans
              (((patPhase_preserves _ _).2.1).trans ((accPhase_preserves _ _).1))))))
  have pa : st8.db.accounts = st2.db.accounts :=
    ((contribPhase_preserves _ _).1).trans
      (((goalPhase_preserves _ _).1).trans
        (((budPhase_preserves _ _).1).trans
          (((billPhase_preserves _ _).1).trans
            (((txPhase_preserves _ _).1).trans ((patPhase_preserves _ _).1)))))
  have pp : st8.db.recurringPatterns = st3.db.recurringPatterns :=
    ((contribPhase_preserves _ _).2.2.2.2.2.2).trans
      (((goalPhase_preserves _ _).2.2.2.2.2.2).trans
        (((budPhase_preserves _ _).2.2.2.2.2.2).trans
          (((billPhase_preserves _ _).2.2.2.2.2.2).trans
            ((txPhase_preserves _ _).2.2.2.2.2.2))))
  have pt : st8.db.transactions = st4.db.transactions :=
    ((contribPhase_preserves _ _).2.2.1).trans
      (((goalPhase_preserves _ _).2.2.1).trans
        (((budPhase_preserves _ _).2.2.1).trans ((billPhase_preserves _ _).2.2.1)))
  have pb : st8.db.bills = st5.db.bills :=
    ((contribPhase_preserves _ _).2.2.2.1).trans
      (((goalPhase_preserves _ _).2.2.2.1).trans ((budPhase_preserves _ _).2.2.2.1))
  have pu : st8.db.budgets = st6.db.budgets :=
    ((contribPhase_preserves _ _).2.2.2.2.2.1).trans ((goalPhase_preserves _ _).2.2.2.2.2.1)
  have pg : st8.db.goals = st7.db.goals :=
    (contribPhase_preserves _ _).2.2.2.2.1
  have K1 : ∀ r ∈ c.categories, (categoryIds st8.db.categories).contains r.id = true :=
    fun r hr => by rw [pc]; exact H1 r hr
  have K2 : ∀ r ∈ c.accounts, (accountIds st8.db.accounts).contains r.id = true :=
    fun r hr => by rw [pa]; exact H2 r hr
  have K3 : ∀ r ∈ c.recurringPatterns,
      (patternIds st8.db.recurringPatterns).contains r.id = true :=
    fun r hr => by rw [pp]; exact H3 r hr
  have K4 : ∀ r ∈ c.transactions, (transactionIds st8.db.transactions).contains r.id = true :=
    fun r hr => by rw [pt]; exact H4 r hr
  have K5 : ∀ r ∈ c.bills, (billIds st8.db.bills).contains r.id = true :=
    fun r hr => by rw [pb]; exact H5 r hr
  have K6 : ∀ r ∈ c.budgets, (budgetIds st8.db.budgets).contains r.id = true :=
    fun r hr => by rw [pu]; exact H6 r hr
  have K7 : ∀ r ∈ c.goals, (goalIds st8.db.goals).contains r.id = true :=
    fun r hr => by rw [pg]; exact H7 r hr
  -- the second run is pure skip-counting
  have s1 : c.categories.foldl mergeCategoryStep (⟨st8.db, createEmptySummary, []⟩ : MergeSt)
      = ⟨st8.db,
         ⟨0, 0, 0, 0 + c.categories.length, 0, 0, 0, 0, 0, 0, 0, 0, 0, 0, 0, 0⟩, []⟩ :=
    catPhase_skip_all _ _ K1
  have s2 : c.accounts.foldl mergeAccountStep
        (⟨st8.db, ⟨0, 0, 0, 0 + c.categories.length, 0, 0, 0, 0, 0, 0, 0, 0, 0, 0, 0, 0⟩,
          []⟩ : MergeSt)
      = ⟨st8.db,
         ⟨0, 0 + c.accounts.length, 0, 0 + c.categories.length,
          0, 0, 0, 0, 0, 0, 0, 0, 0, 0, 0, 0⟩, []⟩ :=
    accPhase_skip_all _ _ K2
  have s3 : c.recurringPatterns.foldl mergePatternStep
        (⟨st8.db,
          ⟨0, 0 + c.accounts.length, 0, 0 + c.categories.length,
           0, 0, 0, 0, 0, 0, 0, 0, 0, 0, 0, 0⟩, []⟩ : MergeSt)
      = ⟨st8.db,
         ⟨0, 0 + c.accounts.length, 0, 0 + c.categories.length,
          0, 0, 0, 0, 0, 0, 0, 0, 0, 0 + c.recurringPatterns.length, 0, 0⟩, []⟩ :=
    patPhase_skip_all _ _ K3
  have s4 : c.transactions.foldl mergeTransactionStep
        (⟨st8.db,
          ⟨0, 0 + c.accounts.length, 0, 0 + c.categories.length,
           0, 0, 0, 0, 0, 0, 0, 0, 0, 0 + c.recurringPatterns.length, 0, 0⟩, []⟩ : MergeSt)
      = ⟨st8.db,
         ⟨0, 0 + c.accounts.length, 0, 0 + c.categories.length,
          0, 0 + c.transactions.length, 0, 0, 0, 0, 0, 0, 0,
          0 + c.recurringPatterns.length, 0, 0⟩, []⟩ :=
    txPhase_skip_all _ _ K4
  have s5 : c.bills.foldl mergeBillStep
        (⟨st8.db,
          ⟨0, 0 + c.accounts.length, 0, 0 + c.categories.length,
           0, 0 + c.transactions.length, 0, 0, 0, 0, 0, 0, 0,
           0 + c.recurringPatterns.length, 0, 0⟩, []⟩ : MergeSt)
      = ⟨st8.db,
         ⟨0, 0 + c.accounts.length, 0, 0 + c.categories.length,
          0, 0 + c.transactions.length, 0, 0 + c.bills.length, 0, 0, 0, 0, 0,
          0 + c.recurringPatterns.length, 0, 0⟩, []⟩ :=
    billPhase_skip_all _ _ K5
  have s6 : c.budgets.foldl mergeBudgetStep
        (⟨st8.db,
          ⟨0, 0 + c.accounts.length, 0, 0 + c.categories.length,
           0, 0 + c.transactions.length, 0, 0 + c.bills.length, 0, 0, 0, 0, 0,
           0 + c.recurringPatterns.length, 0, 0⟩, []⟩ : MergeSt)
      = ⟨st8.db,
         ⟨0, 0 + c.accounts.length, 0, 0 + c.categories.length,
          0, 0 + c.transactions.length, 0, 0 + c.bills.length, 0, 0, 0,
          0 + c.budgets.length, 0, 0 + c.recurringPatterns.length, 0, 0⟩, []⟩ :=
    budPhase_skip_all _ _ K6
  have s7 : c.goals.foldl mergeGoalStep
        (⟨st8.db,
          ⟨0, 0 + c.accounts.length, 0, 0 + c.categories.length,
           0, 0 + c.transactions.length, 0, 0 + c.bills.length, 0, 0, 0,
           0 + c.budgets.length, 0, 0 + c.recurringPatterns.length, 0, 0⟩, []⟩ : MergeSt)
      = ⟨st8.db,
         ⟨0, 0 + c.accounts.length, 0, 0 + c.categories.length,
          0, 0 + c.transactions.length, 0, 0 + c.bills.length, 0,
          0 + c.goals.length, 0, 0 + c.budgets.length, 0,
          0 + c.recurringPatterns.length, 0, 0⟩, []⟩ :=
    goalPhase_skip_all _ _ K7
  have s8 : c.goalContributions.foldl mergeContributionStep
        (⟨st8.db,
          ⟨0, 0 + c.accounts.length, 0, 0 + c.categories.length,
           0, 0 + c.transactions.length, 0, 0 + c.bills.length, 0,
           0 + c.goals.length, 0, 0 + c.budgets.length, 0,
           0 + c.recurringPatterns.length, 0, 0⟩, []⟩ : MergeSt)
      = ⟨st8.db,
         ⟨0, 0 + c.accounts.length, 0, 0 + c.categories.length,
          0, 0 + c.transactions.length, 0, 0 + c.bills.length, 0,
          0 + c.goals.length, 0, 0 + c.budgets.length, 0,
          0 + c.recurringPatterns.length, 0, 0 + c.goalContributions.length⟩, []⟩ :=
    contribPhase_skip_all _ _ H8
  have hchain2 : mergeChain st8.db c
      = ⟨st8.db,
         ⟨0, 0 + c.accounts.length, 0, 0 + c.categories.length,
          0, 0 + c.transactions.length, 0, 0 + c.bills.length, 0,
          0 + c.goals.length, 0, 0 + c.budgets.length, 0,
          0 + c.recurringPatterns.length, 0, 0 + c.goalContributions.length⟩, []⟩ := by
    unfold mergeChain
    rw [s1, s2, s3, s4, s5, s6, s7, s8]
  have hfst : (importMerge db b).1 = st8.db := by rw [hm]
  rw [hfst, importMerge_eq_chain st8.db b, ← hc, hchain2]
  simp

def accC3w : Account := ⟨"a3", "Main", .checking, 0, "USD", 1, 0, 0⟩

def txC3w : Transaction :=
  ⟨"t3w", "a3", none, 4, .income, 1700000000000, none, none, 0, none, 0, 0⟩

def bdC3w : BackupData :=
  ⟨1, "2024-05-05T00:00:00.000Z",
   some ⟨some [accC3w], some [], some [txC3w], some [], some [], some [], some [], some []⟩,
   some ⟨1, 1, 0, 0⟩⟩

/-- Claim C3, witness: a clean snapshot (one account, one transaction) whose
first merge run is error-free; the second run changes nothing and skips every
record. -/
theorem spec_C3_witness :
    importMerge (importMerge emptyDB bdC3w).1 bdC3w
      = ((importMerge emptyDB bdC3w).1,
         ⟨true, .merge,
          { accountsAdded := 0, accountsSkipped := (getCollections bdC3w).accounts.length,
            categoriesAdded := 0,
            categoriesSkipped := (getCollections bdC3w).categories.length,
            transactionsAdded := 0,
            transactionsSkipped := (getCollections bdC3w).transactions.length,
            billsAdded := 0, billsSkipped := (getCollections bdC3w).bills.length,
            goalsAdded := 0, goalsSkipped := (getCollections bdC3w).goals.length,
            budgetsAdded := 0, budgetsSkipped := (getCollections bdC3w).budgets.length,
            patternsAdded := 0,
            patternsSkipped := (getCollections bdC3w).recurringPatterns.length,
            contributionsAdded := 0,
            contributionsSkipped := (getCollections bdC3w).goalContributions.length },
          []⟩) :=
  spec_C3_merge_idempotent_when_clean emptyDB bdC3w (by decide)

/-! ## Claim C4: merge rejection of dangling transactions -/

/-- Claim C4: in a merge import, a transaction whose `account_id` matches no
account of the post-merge store (which holds the pre-existing accounts plus
every account inserted earlier in the same merge), and whose id is fresh and
unique in the batch, is not inserted and yields the structured error
`entity = transaction`, the record id, `field = account_id` and a message
naming the missing account; and every transaction of the same batch whose id
is fresh and whose referenced account, category and recurring pattern all
resolve is still committed. -/
theorem spec_C4_merge_dangling_transaction (db : DB) (b : BackupData) :
    (∀ tx, tx ∈ (getCollections b).transactions →
      (∀ t ∈ (getCollections b).transactions, t.id = tx.id → t = tx) →
      (transactionIds db.transactions).contains tx.id = false →
      (accountIds (importMerge db b).1.accounts).contains tx.account_id = false →
      ((⟨"transaction", tx.id, some "account_id",
          "Referenced account " ++ tx.account_id ++ " does not exist"⟩ : ImportError)
          ∈ (importMerge db b).2.errors
        ∧ (transactionIds (importMerge db b).1.transactions).contains tx.id = false))
    ∧ (∀ t2, t2 ∈ (getCollections b).transactions →
      (transactionIds db.transactions).contains t2.id = false →
      (accountIds (importMerge db b).1.accounts).contains t2.account_id = true →
      (t2.category_id.all fun cid =>
        (categoryIds (importMerge db b).1.categories).contains cid) = true →
      (t2.recurring_pattern_id.all fun pid =>
        (patternIds (importMerge db b).1.recurringPatterns).contains pid) = true →
      (transactionIds (importMerge db b).1.transactions).contains t2.id = true) := by
  set c := getCollections b with hc
  set st0 : MergeSt := ⟨db, createEmptySummary, []⟩ with hst0
  set st1 := c.categories.foldl mergeCategoryStep st0 with hst1
  set st2 := c.accounts.foldl mergeAccountStep st1 with hst2
  set st3 := c.recurringPatterns.foldl mergePatternStep st2 with hst3
  set st4 := c.transactions.foldl mergeTransactionStep st3 with hst4
  set st5 := c.bills.foldl mergeBillStep st4 with hst5
  set st6 := c.budgets.foldl mergeBudgetStep st5 with hst6
  set st7 := c.goals.foldl mergeGoalStep st6 with hst7
  set st8 := c.goalContributions.foldl mergeContributionStep st7 with hst8
  have hchain : mergeChain db c = st8 := rfl
  have hm : importMerge db b = (st8.db, ⟨true, .merge, st8.summary, st8.errors⟩) := by
    rw [importMerge_eq_chain db b, ← hc, hchain]
  have hfst : (importMerge db b).1 = st8.db := by rw [hm]
  have paC4 : st8.db.accounts = st3.db.accounts :=
    ((contribPhase_preserves _ _).1).trans
      (((goalPhase_preserves _ _).1).trans
        (((budPhase_preserves _ _).1).trans
          (((billPhase_preserves _ _).1).trans ((txPhase_preserves _ _).1))))
  have pcatC4 : st8.db.categories = st3.db.categories :=
    ((contribPhase_preserves _ _).2.1).trans
      (((goalPhase_preserves _ _).2.1).trans
        (((budPhase_preserves _ _).2.1).trans
          (((billPhase_preserves _ _).2.1).trans ((txPhase_preserves _ _).2.1))))
  have ppatC4 : st8.db.recurringPatterns = st3.db.recurringPatterns :=
    ((contribPhase_preserves _ _).2.2.2.2.2.2).trans
      (((goalPhase_preserves _ _).2.2.2.2.2.2).trans
        (((budPhase_preserves _ _).2.2.2.2.2.2).trans
          (((billPhase_preserves _ _).2.2.2.2.2.2).trans
            ((txPhase_preserves _ _).2.2.2.2.2.2))))
  have ptxEntry : st3.db.transactions = db.transactions :=
    ((patPhase_preserves _ _).2.2.1).trans
      (((accPhase_preserves _ _).2.1).trans ((catPhase_preserves _ _).2.1))
  have ptxExit : st8.db.transactions = st4.db.transactions :=
    ((contribPhase_preserves _ _).2.2.1).trans
      (((goalPhase_preserves _ _).2.2.1).trans
        (((budPhase_preserves _ _).2.2.1).trans ((billPhase_preserves _ _).2.2.1)))
  obtain ⟨e5, he5⟩ := foldl_errors_append mergeBillStep mergeBillStep_errors c.bills st4
  obtain ⟨e6, he6⟩ := foldl_errors_append mergeBudgetStep mergeBudgetStep_errors c.budgets st5
  obtain ⟨e7, he7⟩ := foldl_errors_append mergeGoalStep mergeGoalStep_errors c.goals st6
  obtain ⟨e8, he8⟩ :=
    foldl_errors_append mergeContributionStep mergeContributionStep_errors
      c.goalContributions st7
  have hsub : ∀ x : ImportError, x ∈ st4.errors → x ∈ st8.errors := by
    intro x hx
    rw [he8, he7, he6, he5]
    exact List.mem_append_left _ (List.mem_append_left _
      (List.mem_append_left _ (List.mem_append_left _ hx)))
  constructor
  · intro tx htxmem huniq hid hacc
    rw [hfst, paC4] at hacc
    have hid3 : (transactionIds st3.db.transactions).contains tx.id = false := by
      rw [ptxEntry]; exact hid
    have hd := foldl_dangling mergeTransactionStep (fun d => transactionIds d.transactions)
      (fun t => t.id) (fun d t => (accountIds d.accounts).contains t.account_id)
      (fun t => (⟨"transaction", t.id, some "account_id",
        "Referenced account " ++ t.account_id ++ " does not exist"⟩ : ImportError))
      (fun st r h1 h2 => mergeTransactionStep_dangling st r h1 h2)
      mergeTransactionStep_errors
      (fun st r i hh => mergeTransactionStep_ids_bound st r i hh)
      (fun st r x => by simp only [mergeTransactionStep_accounts])
      c.transactions st3 tx htxmem huniq hid3 hacc
    constructor
    · rw [hm]
      exact hsub _ hd.1
    · rw [hfst, ptxExit]
      exact hd.2
  · intro t2 ht2mem hid hacc hcat hpat
    rw [hfst, paC4] at hacc
    rw [hfst, pcatC4] at hcat
    rw [hfst, ppatC4] at hpat
    have hokg : ((accountIds st3.db.accounts).contains t2.account_id
        && (t2.category_id.all fun cid => (categoryIds st3.db.categories).contains cid)
        && (t2.recurring_pattern_id.all fun pid =>
            (patternIds st3.db.recurringPatterns).contains pid)) = true := by
      rw [Bool.and_eq_true, Bool.and_eq_true]
      exact ⟨⟨hacc, hcat⟩, hpat⟩
    have hv := foldl_valid_insert mergeTransactionStep (fun d => transactionIds d.transactions)
      (fun t => t.id)
      (fun d t => (accountIds d.accounts).contains t.account_id
        && (t.category_id.all fun cid => (categoryIds d.categories).contains cid)
        && (t.recurring_pattern_id.all fun pid => (patternIds d.recurringPatterns).contains pid))
      (fun st r h1 h2 => by
        rw [Bool.and_eq_true, Bool.and_eq_true] at h2
        exact mergeTransactionStep_valid st r h1 h2.1.1 h2.1.2 h2.2)
      mergeTransactionStep_ids_mono
      (fun st r x => by
        simp only [mergeTransactionStep_accounts, mergeTransactionStep_categories,
          mergeTransactionStep_patterns])
      c.transactions st3 t2 ht2mem hokg
    rcases hv with hv | hv
    · rw [hfst, ptxExit]
      exact hv
    · exfalso
      have hv' : (transactionIds st3.db.transactions).contains t2.id = true := hv
      rw [ptxEntry] at hv'
      rw [hv'] at hid
      cases hid

def accC4 : Account := ⟨"a4", "Wallet", .cash, 10, "USD", 1, 0, 0⟩

def txC4bad : Transaction :=
  ⟨"t4-bad", "nowhere", none, 1, .expense, 1700000000000, none, none, 0, none, 0, 0⟩

def txC4good : Transaction :=
  ⟨"t4-good", "a4", none, 2, .expense, 1700000000001, none, none, 0, none, 0, 0⟩

def bdC4 : BackupData :=
  ⟨1, "2024-06-06T00:00:00.000Z",
   some ⟨some [accC4], some [], some [txC4bad, txC4good], some [], some [], some [], some [],
         some []⟩,
   some ⟨1, 2, 0, 0⟩⟩

/-- Claim C4, witness: in one merge batch the dangling transaction is rejected
with its structured referential error and not inserted, while the valid
transaction of the same batch is committed. -/
theorem spec_C4_witness :
    ((⟨"transaction", "t4-bad", some "account_id",
        "Referenced account nowhere does not exist"⟩ : ImportError)
        ∈ (importMerge emptyDB bdC4).2.errors
      ∧ (transactionIds (importMerge emptyDB bdC4).1.transactions).contains "t4-bad" = false)
      ∧ (transactionIds (importMerge emptyDB bdC4).1.transactions).contains "t4-good"
          = true := by
  obtain ⟨h1, h2⟩ := spec_C4_merge_dangling_transaction emptyDB bdC4
  refine ⟨?_, ?_⟩
  · have := h1 txC4bad (by decide) (by decide) (by decide) (by decide)
    exact this
  · exact h2 txC4good (by decide) (by decide) (by decide) (by decide) (by decide)

/-! ## Claim C5: merge-mode budgets with a dangling category -/

def budC5 : Budget := ⟨"b5", "no-such-category", 50, .monthly, 0, none, 0, 0⟩

def bdC5 : BackupData :=
  ⟨1, "2024-07-07T00:00:00.000Z",
   some ⟨some [], some [], some [], some [], some [], some [], some [budC5], some []⟩,
   some ⟨0, 0, 0, 0⟩⟩

/-- Claim C5, counterexample: merging a budget whose `category_id` resolves to
no category records exactly one error whose `field` is `none` (not
`category_id`) and whose message is the store's generic
`FOREIGN KEY constraint failed`, which does not name the missing reference —
refuting the claimed structured error shape (the record is indeed rejected
and not inserted). -/
theorem spec_C5_counterexample :
    (importMerge emptyDB bdC5).2.errors
        = [⟨"budget", "b5", none, "FOREIGN KEY constraint failed"⟩]
      ∧ (importMerge emptyDB bdC5).1.budgets = [] := by
  exact ⟨by decide, by decide⟩

/-- Claim C5 (amended): in a merge import, a budget whose `category_id`
references no category of the post-merge store, and whose id is fresh and
unique in the batch, is rejected and not inserted; but the recorded error
carries only the entity `budget`, the record id and the store's generic
message `FOREIGN KEY constraint failed` — no `field` name and nothing naming
the missing category. -/
theorem spec_C5_merge_dangling_budget (db : DB) (b : BackupData) (bud : Budget)
    (hmem : bud ∈ (getCollections b).budgets)
    (huniq : ∀ x ∈ (getCollections b).budgets, x.id = bud.id → x = bud)
    (hid : (budgetIds db.budgets).contains bud.id = false)
    (hcat : (categoryIds (importMerge db b).1.categories).contains bud.category_id = false) :
    (⟨"budget", bud.id, none, "FOREIGN KEY constraint failed"⟩ : ImportError)
        ∈ (importMerge db b).2.errors
      ∧ (budgetIds (importMerge db b).1.budgets).contains bud.id = false := by
  set c := getCollections b with hc
  set st0 : MergeSt := ⟨db, createEmptySummary, []⟩ with hst0
  set st1 := c.categories.foldl mergeCategoryStep st0 with hst1
  set st2 := c.accounts.foldl mergeAccountStep st1 with hst2
  set st3 := c.recurringPatterns.foldl mergePatternStep st2 with hst3
  set st4 := c.transactions.foldl mergeTransactionStep st3 with hst4
  set st5 := c.bills.foldl mergeBillStep st4 with hst5
  set st6 := c.budgets.foldl mergeBudgetStep st5 with hst6
  set st7 := c.goals.foldl mergeGoalStep st6 with hst7
  set st8 := c.goalContributions.foldl mergeContributionStep st7 with hst8
  have hchain : mergeChain db c = st8 := rfl
  have hm : importMerge db b = (st8.db, ⟨true, .merge, st8.summary, st8.errors⟩) := by
    rw [importMerge_eq_chain db b, ← hc, hchain]
  have hfst : (importMerge db b).1 = st8.db := by rw [hm]
  have pcat : st8.db.categories = st5.db.categories :=
    ((contribPhase_preserves _ _).2.1).trans
      (((goalPhase_preserves _ _).2.1).trans ((budPhase_preserves _ _).2.1))
  have pbudEntry : st5.db.budgets = db.budgets :=
    ((billPhase_preserves _ _).2.2.2.2.2.1).trans
      (((txPhase_preserves _ _).2.2.2.2.2.1).trans
        (((patPhase_preserves _ _).2.2.2.2.2.2).trans
          (((accPhase_preserves _ _).2.2.2.2.2.1).trans
            ((catPhase_preserves _ _).2.2.2.2.2.1))))
  have pbudExit : st8.db.budgets = st6.db.budgets :=
    ((contribPhase_preserves _ _).2.2.2.2.2.1).trans ((goalPhase_preserves _ _).2.2.2.2.2.1)
  obtain ⟨e7, he7⟩ := foldl_errors_append mergeGoalStep mergeGoalStep_errors c.goals st6
  obtain ⟨e8, he8⟩ :=
    foldl_errors_append mergeContributionStep mergeContributionStep_errors
      c.goalContributions st7
  have hsub : ∀ x : ImportError, x ∈ st6.errors → x ∈ st8.errors := by
    intro x hx
    rw [he8, he7]
    exact List.mem_append_left _ (List.mem_append_left _ hx)
  rw [hfst, pcat] at hcat
  have hid5 : (budgetIds st5.db.budgets).contains bud.id = false := by
    rw [pbudEntry]; exact hid
  have hd := foldl_dangling mergeBudgetStep (fun d => budgetIds d.budgets)
    (fun x => x.id) (fun d x => (categoryIds d.categories).contains x.category_id)
    (fun x => (⟨"budget", x.id, none, "FOREIGN KEY constraint failed"⟩ : ImportError))
    (fun st r h1 h2 => mergeBudgetStep_dangling st r h1 h2)
    mergeBudgetStep_errors
    (fun st r i hh => mergeBudgetStep_ids_bound st r i hh)
    (fun st r x => by simp only [mergeBudgetStep_categories])
    c.budgets st5 bud hmem huniq hid5 hcat
  constructor
  · rw [hm]
    exact hsub _ hd.1
  · rw [hfst, pbudExit]
    exact hd.2

def catC5 : Category := ⟨"cat5", "Food", .expense, none, none, none, 0⟩

def budC5w : Budget := ⟨"b5w", "ghost-cat", 9, .weekly, 0, none, 0, 0⟩

def bdC5w : BackupData :=
  ⟨1, "2024-08-08T00:00:00.000Z",
   some ⟨some [], some [catC5], some [], some [], some [], some [], some [budC5w], some []⟩,
   some ⟨0, 0, 0, 0⟩⟩

/-- Claim C5, witness: a merge of one category and one budget pointing at a
different, missing category records the generic FK error for the budget and
does not insert it. -/
theorem spec_C5_witness :
    (⟨"budget", "b5w", none, "FOREIGN KEY constraint failed"⟩ : ImportError)
        ∈ (importMerge emptyDB bdC5w).2.errors
      ∧ (budgetIds (importMerge emptyDB bdC5w).1.budgets).contains "b5w" = false := by
  have := spec_C5_merge_dangling_budget emptyDB bdC5w budC5w
    (by decide) (by decide) (by decide) (by decide)
  exact this

end BudgetTracker
